import Mathlib

/-!
Verification of the pyfronius client library (`pyfronius/fronius.py`).

The library reshapes the vendor JSON of a Fronius solar device into a
normalized nested mapping of readings.  We embed the JSON value type, the
Python dictionary operations the code relies on (insertion-ordered
association lists), and each normalizer of the `Fronius` class as a Lean
function.  Python exceptions (`KeyError`, `TypeError`) are modelled by
`Option`: a `none` result corresponds to the call raising.
-/

set_option autoImplicit false

/-- Parsed JSON values, plus one extra constructor `natObj` for in-memory
Python dictionaries keyed by integers (the storage normalizer builds the
`modules` dictionary with `int` keys `0, 1, ...`). -/
inductive JVal where
  | null : JVal
  | bool : Bool → JVal
  | num : Int → JVal
  | str : String → JVal
  | arr : List JVal → JVal
  | obj : List (String × JVal) → JVal
  | natObj : List (Nat × JVal) → JVal

/-- A Python dictionary with string keys: an insertion-ordered association
list.  Python dictionaries have no duplicate keys; the operations below
preserve key-uniqueness. -/
abbrev Dict := List (String × JVal)

/-- First binding of key `k` (Python `d[k]` when the key exists). -/
def lookup : Dict → String → Option JVal
  | [], _ => none
  | (k', v) :: rest, k => if k' = k then some v else lookup rest k

/-- Lookup in an integer-keyed dictionary. -/
def natLookup : List (Nat × JVal) → Nat → Option JVal
  | [], _ => none
  | (k', v) :: rest, k => if k' = k then some v else natLookup rest k

/-- Python `d[k] = v`: replace the binding in place if the key exists,
otherwise append it at the end (insertion order). -/
def dictSet : Dict → String → JVal → Dict
  | [], k, v => [(k, v)]
  | (k', v') :: rest, k, v =>
      if k' = k then (k, v) :: rest else (k', v') :: dictSet rest k v

/-- Python `d.update(e)`: set every binding of `e` in `d`, in order. -/
def dictUpdate (d : Dict) (e : Dict) : Dict :=
  e.foldl (fun acc kv => dictSet acc kv.1 kv.2) d

/-- Subscripting an arbitrary JSON value with a string key: `some` only
when the value is an object that has the key (a missing key is Python's
`KeyError`, a non-object is a `TypeError`; both are modelled as `none`). -/
def getKey (j : JVal) (k : String) : Option JVal :=
  match j with
  | .obj kvs => lookup kvs k
  | _ => none

/-- Python truthiness of a JSON value (`bool(x)`). -/
def truthy : JVal → Bool
  | .null => false
  | .bool b => b
  | .num n => n != 0
  | .str s => s != ""
  | .arr xs => !xs.isEmpty
  | .obj kvs => !kvs.isEmpty
  | .natObj kvs => !kvs.isEmpty

/-- Python `+` as used by the aggregation loops: defined on numbers. -/
def jAdd : JVal → JVal → Option JVal
  | .num a, .num b => some (.num (a + b))
  | _, _ => none

/-- `Fronius._copy(source, target, sid, tid, unit=None)`
(fronius.py lines 337-351): the central field-copy rule.  The entry
written to `target[tid]` is computed exactly as in the source:
if `source[sid]` is a dict with a `Value` key, take that value (and the
dict's `Unit` if present); else if `sid` exists, take the raw value; else
default to a zero reading; finally a supplied fixed `unit` argument
overwrites the `unit` key of the fresh entry. -/
def _copy (source : Dict) (target : Dict) (sid tid : String)
    (unit : Option String := none) : Dict :=
  let entry : Dict :=
    match lookup source sid with
    | some (.obj kvs) =>
        match lookup kvs "Value" with
        | some v =>
            (match lookup kvs "Unit" with
             | some u => [("value", v), ("unit", u)]
             | none => [("value", v)])
        | none => [("value", .obj kvs)]
    | some v => [("value", v)]
    | none => [("value", .num 0)]
  let entry' : Dict :=
    match unit with
    | some u => dictSet entry "unit" (.str u)
    | none => entry
  dictSet target tid (.obj entry')

/-- One row of a fixed `_copy` table: the source field id, the target
field id and the optional fixed unit of one `self._copy(...)` call. -/
structure CopyRow where
  sid : String
  tid : String
  unit : Option String := none

/-- A block of consecutive `self._copy(source, target, ...)` calls sharing
one source dictionary, applied in source order. -/
def copyTable (source : Dict) (rows : List CopyRow) (target : Dict) : Dict :=
  rows.foldl (fun t r => _copy source t r.sid r.tid r.unit) target

/-- The `Manufacturer`/`Model`/`Serial` copies from the `Details`
sub-dictionary, shared by the meter, controller and module normalizers
(fronius.py lines 282-285, 303-306, 330-333). -/
def detailsRows : List CopyRow :=
  [⟨"Manufacturer", "manufacturer", none⟩,
   ⟨"Model", "model", none⟩,
   ⟨"Serial", "serial", none⟩]

/-- `Fronius._status_data(json)` (fronius.py lines 108-118): extract the
five header readings from the response envelope.  Every subscript is a
Python `[...]` access and raises on absence, hence the `Option` chain. -/
def _status_data (json : JVal) : Option Dict := do
  let head ← getKey json "Head"
  let ts ← getKey head "Timestamp"
  let status ← getKey head "Status"
  let code ← getKey status "Code"
  let reason ← getKey status "Reason"
  let msg ← getKey status "UserMessage"
  return [("timestamp", .obj [("value", ts)]),
          ("status", status),
          ("status_code", .obj [("value", code)]),
          ("status_reason", .obj [("value", reason)]),
          ("status_message", .obj [("value", msg)])]

/-- `Fronius._current_data(url, fun)` (fronius.py lines 121-130), with the
already-parsed response in place of the fetch: extract the header bundle,
then return it unchanged when `json['Body']` or `json['Body']['Data']` is
falsy, otherwise hand the payload to the endpoint normalizer `fun`.
Note that both subscripts raise when the key is absent. -/
def _current_data (json : JVal) (fn : Dict → JVal → Option Dict) : Option Dict := do
  let sensor ← _status_data json
  let body ← getKey json "Body"
  if truthy body = false then
    return sensor
  else
    let dat ← getKey body "Data"
    if truthy dat = false then
      return sensor
    else
      fn sensor dat

/-- The two inverter-sourced copies of `_system_power_flow`
(fronius.py lines 139-140), in source order. -/
def powerFlowInverterRows : List CopyRow :=
  [⟨"Battery_Mode", "battery_mode", none⟩,
   ⟨"SOC", "state_of_charge", some "%"⟩]

/-- The site-sourced copies of `_system_power_flow`
(fronius.py lines 142-153), in source order. -/
def powerFlowSiteRows : List CopyRow :=
  [⟨"BatteryStandby", "battery_standby", none⟩,
   ⟨"E_Day", "energy_day", some "Wh"⟩,
   ⟨"E_Total", "energy_total", some "Wh"⟩,
   ⟨"E_Year", "energy_year", some "Wh"⟩,
   ⟨"Meter_Location", "meter_location", none⟩,
   ⟨"Mode", "meter_mode", none⟩,
   ⟨"P_Akku", "power_battery", some "W"⟩,
   ⟨"P_Grid", "power_grid", some "W"⟩,
   ⟨"P_Load", "power_load", some "W"⟩,
   ⟨"P_PV", "power_photovoltaics", some "W"⟩,
   ⟨"rel_Autonomy", "relative_autonomy", some "%"⟩,
   ⟨"rel_SelfConsumption", "relative_self_consumption", some "%"⟩]

/-- `Fronius._system_power_flow(sensor, data)` (fronius.py lines 133-155).
`data['Site']` and `data['Inverters']['1']` are read up front (raising on
absence); the `_copy` calls then need both to be dictionaries. -/
def _system_power_flow (sensor : Dict) (data : JVal) : Option Dict := do
  let site ← getKey data "Site"
  let invs ← getKey data "Inverters"
  let inverter ← getKey invs "1"
  match inverter, site with
  | .obj inv, .obj st =>
      some (copyTable st powerFlowSiteRows (copyTable inv powerFlowInverterRows sensor))
  | _, _ => none

/-- `Fronius._meter_data(data)` (fronius.py lines 242-287): the shared
meter normalizer, a fixed table of `_copy` calls plus an optional
`Details` sub-dictionary.  `data` (and `Details`, when present) must be a
dictionary for the membership tests inside `_copy`.  The fixed table of
copies (fronius.py lines 246-281) is `meterRows`, in source order. -/
def meterRows : List CopyRow :=
  [⟨"Current_AC_Phase_1", "current_ac_phase_1", some "A"⟩,
   ⟨"Current_AC_Phase_2", "current_ac_phase_2", some "A"⟩,
   ⟨"Current_AC_Phase_3", "current_ac_phase_3", some "A"⟩,
   ⟨"EnergyReactive_VArAC_Sum_Consumed", "energy_reactive_ac_consumed", some "Wh"⟩,
   ⟨"EnergyReactive_VArAC_Sum_Produced", "energy_reactive_ac_produced", some "Wh"⟩,
   ⟨"EnergyReal_WAC_Minus_Absolute", "energy_real_ac_minus", some "Wh"⟩,
   ⟨"EnergyReal_WAC_Plus_Absolute", "energy_real_ac_plus", some "Wh"⟩,
   ⟨"EnergyReal_WAC_Sum_Consumed", "energy_real_consumed", some "Wh"⟩,
   ⟨"EnergyReal_WAC_Sum_Produced", "energy_real_produced", some "Wh"⟩,
   ⟨"Frequency_Phase_Average", "frequency_phase_average", some "H"⟩,
   ⟨"PowerApparent_S_Phase_1", "power_apparent_phase_1", some "W"⟩,
   ⟨"PowerApparent_S_Phase_2", "power_apparent_phase_2", some "W"⟩,
   ⟨"PowerApparent_S_Phase_3", "power_apparent_phase_3", some "W"⟩,
   ⟨"PowerApparent_S_Sum", "power_apparent", some "W"⟩,
   ⟨"PowerFactor_Phase_1", "power_factor_phase_1", some "W"⟩,
   ⟨"PowerFactor_Phase_2", "power_factor_phase_2", some "W"⟩,
   ⟨"PowerFactor_Phase_3", "power_factor_phase_3", some "W"⟩,
   ⟨"PowerFactor_Sum", "power_factor", some "W"⟩,
   ⟨"PowerReactive_Q_Phase_1", "power_reactive_phase_1", some "W"⟩,
   ⟨"PowerReactive_Q_Phase_2", "power_reactive_phase_2", some "W"⟩,
   ⟨"PowerReactive_Q_Phase_3", "power_reactive_phase_3", some "W"⟩,
   ⟨"PowerReactive_Q_Sum", "power_reactive", some "W"⟩,
   ⟨"PowerReal_P_Phase_1", "power_real_phase_1", some "W"⟩,
   ⟨"PowerReal_P_Phase_2", "power_real_phase_2", some "W"⟩,
   ⟨"PowerReal_P_Phase_3", "power_real_phase_3", some "W"⟩,
   ⟨"PowerReal_P_Sum", "power_real", some "W"⟩,
   ⟨"Voltage_AC_Phase_1", "voltage_ac_phase_1", some "V"⟩,
   ⟨"Voltage_AC_Phase_2", "voltage_ac_phase_2", some "V"⟩,
   ⟨"Voltage_AC_Phase_3", "voltage_ac_phase_3", some "V"⟩,
   ⟨"Voltage_AC_PhaseToPhase_12", "voltage_ac_phase_to_phase_12", some "V"⟩,
   ⟨"Voltage_AC_PhaseToPhase_23", "voltage_ac_phase_to_phase_23", some "V"⟩,
   ⟨"Voltage_AC_PhaseToPhase_31", "voltage_ac_phase_to_phase_31", some "V"⟩,
   ⟨"Meter_Location_Current", "meter_location", none⟩,
   ⟨"Enable", "enable", none⟩,
   ⟨"Visible", "visible", none⟩]

def _meter_data (data : JVal) : Option Dict :=
  match data with
  | .obj d =>
      let m := copyTable d meterRows []
      match lookup d "Details" with
      | none => some m
      | some (.obj det) => some (copyTable det detailsRows m)
      | some _ => none
  | _ => none

/-- One iteration of the loop in `_system_meter_data`:
`sensor['meters'][i] = self._meter_data(data[i])`. -/
def meterStep (acc : Dict) (kv : String × JVal) : Option Dict := do
  let md ← _meter_data kv.2
  return dictSet acc kv.1 (.obj md)

/-- `Fronius._system_meter_data(sensor, data)` (fronius.py lines 158-166):
iterate the meter-id → payload mapping, apply `_meter_data` to each
payload and collect the results under `sensor['meters']`. -/
def _system_meter_data (sensor : Dict) (data : JVal) : Option Dict :=
  match data with
  | .obj m => do
      let meters ← m.foldlM meterStep ([] : Dict)
      return dictSet sensor "meters" (.obj meters)
  | _ => none

/-- `Fronius._device_meter_data(sensor, data)` (fronius.py lines 200-205):
merge the meter normalizer's fields directly into the bundle
(`sensor.update(...)`). -/
def _device_meter_data (sensor : Dict) (data : JVal) : Option Dict := do
  let md ← _meter_data data
  return dictUpdate sensor md

/-- `sensor['inverters'][i] = \x7b\x7d; sensor['inverters'][i][field] = reading`
as in the `DAY_ENERGY` loop body: a fresh per-inverter sub-dictionary is
created, so only `sensor['inverters']` itself needs to exist. -/
def setInverterFresh (s : Dict) (i field : String) (reading : JVal) : Option Dict :=
  match lookup s "inverters" with
  | some (.obj m) =>
      some (dictSet s "inverters" (.obj (dictSet m i (.obj [(field, reading)]))))
  | _ => none

/-- `sensor['inverters'][i][field] = reading` as in the later series'
loop bodies: the sub-dictionary `sensor['inverters'][i]` must already
exist (otherwise Python raises `KeyError`). -/
def setInverterExisting (s : Dict) (i field : String) (reading : JVal) : Option Dict :=
  match lookup s "inverters" with
  | some (.obj m) =>
      match lookup m i with
      | some (.obj entry) =>
          some (dictSet s "inverters"
            (.obj (dictSet m i (.obj (dictSet entry field reading)))))
      | _ => none
  | _ => none

/-- `sensor[agg]['value'] += v`: read the current aggregate value, add the
per-inverter value (numbers only) and write it back. -/
def addToAgg (s : Dict) (agg : String) (v : JVal) : Option Dict :=
  match lookup s agg with
  | some (.obj e) =>
      match lookup e "value" with
      | some cur => do
          let sum ← jAdd cur v
          return dictSet s agg (.obj (dictSet e "value" sum))
      | none => none
  | _ => none

/-- One iteration of a series loop in `_system_inverter_data`
(fronius.py lines 179-195), for the pair `(i, v)` taken from the series'
`Values`: build the reading `\x7bvalue: v, unit: data[ukey]['Unit']\x7d`
(the unit-source series `ukey` is re-read inside the loop, so it is only
required when the loop runs), store it under `inverters[i][field]`
(freshly for `DAY_ENERGY`, into the existing sub-dictionary otherwise)
and add `v` to the top-level aggregate `agg`. -/
def seriesStep (data : JVal) (ukey field agg : String) (fresh : Bool)
    (s : Dict) (iv : String × JVal) : Option Dict := do
  let useries ← getKey data ukey
  let unit ← getKey useries "Unit"
  let reading : JVal := .obj [("value", iv.2), ("unit", unit)]
  let s1 ← if fresh then setInverterFresh s iv.1 field reading
           else setInverterExisting s iv.1 field reading
  addToAgg s1 agg iv.2

/-- One `if skey in data: for i in data[skey]['Values']: ...` block of
`_system_inverter_data`: skipped when the series is absent, raising when
`Values` is absent or not a dictionary, otherwise folding `seriesStep`
over the per-inverter pairs in insertion order. -/
def runSeries (data : JVal) (skey ukey field agg : String) (fresh : Bool)
    (s : Dict) : Option Dict :=
  match getKey data skey with
  | none => some s
  | some series =>
      match getKey series "Values" with
      | some (.obj vals) => vals.foldlM (seriesStep data ukey field agg fresh) s
      | _ => none

/-- `Fronius._system_inverter_data(sensor, data)` (fronius.py lines
169-197): initialize the four aggregates and the empty `inverters`
mapping, then process the four series.  Note the source reads the unit
for both `YEAR_ENERGY` and `PAC` from `data['TOTAL_ENERGY']['Unit']`. -/
def _system_inverter_data (sensor : Dict) (data : JVal) : Option Dict := do
  let s := dictSet sensor "energy_day" (.obj [("value", .num 0), ("unit", .str "Wh")])
  let s := dictSet s "energy_total" (.obj [("value", .num 0), ("unit", .str "Wh")])
  let s := dictSet s "energy_year" (.obj [("value", .num 0), ("unit", .str "Wh")])
  let s := dictSet s "power_ac" (.obj [("value", .num 0), ("unit", .str "W")])
  let s := dictSet s "inverters" (.obj [])
  let s ← runSeries data "DAY_ENERGY" "DAY_ENERGY" "energy_day" "energy_day" true s
  let s ← runSeries data "TOTAL_ENERGY" "TOTAL_ENERGY" "energy_total" "energy_total" false s
  let s ← runSeries data "YEAR_ENERGY" "TOTAL_ENERGY" "energy_year" "energy_year" false s
  let s ← runSeries data "PAC" "TOTAL_ENERGY" "power_ac" "power_ac" false s
  return s

/-- `Fronius._controller_data(data)` (fronius.py lines 290-308). -/
def controllerRows : List CopyRow :=
  [⟨"Capacity_Maximum", "capacity_maximum", some "Ah"⟩,
   ⟨"DesignedCapacity", "capacity_designed", some "Ah"⟩,
   ⟨"Current_DC", "current_dc", some "A"⟩,
   ⟨"Voltage_DC", "voltage_dc", some "V"⟩,
   ⟨"Voltage_DC_Maximum_Cell", "voltage_dc_maximum_cell", some "V"⟩,
   ⟨"Voltage_DC_Minimum_Cell", "voltage_dc_minimum_cell", some "V"⟩,
   ⟨"StateOfCharge_Relative", "state_of_charge", some "%"⟩,
   ⟨"Temperature_Cell", "temperature_cell", some "C"⟩,
   ⟨"Enable", "enable", none⟩]

def _controller_data (data : JVal) : Option Dict :=
  match data with
  | .obj d =>
      let c := copyTable d controllerRows []
      match lookup d "Details" with
      | none => some c
      | some (.obj det) => some (copyTable det detailsRows c)
      | some _ => none
  | _ => none

/-- `Fronius._module_data(data)` (fronius.py lines 311-335). -/
def moduleRows : List CopyRow :=
  [⟨"Capacity_Maximum", "capacity_maximum", some "Ah"⟩,
   ⟨"DesignedCapacity", "capacity_designed", some "Ah"⟩,
   ⟨"Current_DC", "current_dc", some "A"⟩,
   ⟨"Voltage_DC", "voltage_dc", some "V"⟩,
   ⟨"Voltage_DC_Maximum_Cell", "voltage_dc_maximum_cell", some "V"⟩,
   ⟨"Voltage_DC_Minimum_Cell", "voltage_dc_minimum_cell", some "V"⟩,
   ⟨"StateOfCharge_Relative", "state_of_charge", some "%"⟩,
   ⟨"Temperature_Cell", "temperature_cell", some "C"⟩,
   ⟨"Temperature_Cell_Maximum", "temperature_cell_maximum", some "C"⟩,
   ⟨"Temperature_Cell_Minimum", "temperature_cell_minimum", some "C"⟩,
   ⟨"CycleCount_BatteryCell", "cycle_count_cell", some "C"⟩,
   ⟨"Status_BatteryCell", "status_cell", none⟩,
   ⟨"Enable", "enable", none⟩]

def _module_data (data : JVal) : Option Dict :=
  match data with
  | .obj d =>
      let m := copyTable d moduleRows []
      match lookup d "Details" with
      | none => some m
      | some (.obj det) => some (copyTable det detailsRows m)
      | some _ => none
  | _ => none

/-- The `Modules` loop of `_device_storage_data` (fronius.py lines
215-221): normalize each module of the sequence in order and store it
under the running counter `module_count = n, n+1, ...` (an `int`-keyed
dictionary; each key is fresh, so every write appends). -/
def modulesLoop : List JVal → Nat → List (Nat × JVal) → Option (List (Nat × JVal))
  | [], _, acc => some acc
  | mod :: rest, n, acc => do
      let md ← _module_data mod
      modulesLoop rest (n + 1) (acc ++ [(n, .obj md)])

/-- The `Modules` half of `_device_storage_data`: absent `Modules` leaves
the bundle alone, a sequence is normalized through `modulesLoop`. -/
def storageModules (s : Dict) (data : JVal) : Option Dict :=
  match getKey data "Modules" with
  | none => some s
  | some (.arr mods) => do
      let ms ← modulesLoop mods 0 []
      return dictSet s "modules" (.natObj ms)
  | some _ => none

/-- `Fronius._device_storage_data(sensor, data)` (fronius.py lines
208-223): merge the normalized `Controller` fields when present, then
handle the `Modules` sequence when present. -/
def _device_storage_data (sensor : Dict) (data : JVal) : Option Dict := do
  let s ←
    match getKey data "Controller" with
    | none => some sensor
    | some c => (_controller_data c).bind (fun cd => some (dictUpdate sensor cd))
  storageModules s data

def deviceInverterRows : List CopyRow :=
  [⟨"DAY_ENERGY", "energy_day", none⟩,
   ⟨"TOTAL_ENERGY", "energy_total", none⟩,
   ⟨"YEAR_ENERGY", "energy_year", none⟩,
   ⟨"FAC", "frequency_ac", none⟩,
   ⟨"IAC", "current_ac", none⟩,
   ⟨"IDC", "current_dc", none⟩,
   ⟨"PAC", "power_ac", none⟩,
   ⟨"UAC", "voltage_ac", none⟩,
   ⟨"UDC", "voltage_dc", none⟩]

def _device_inverter_data (sensor : Dict) (data : JVal) : Option Dict :=
  match data with
  | .obj d => some (copyTable d deviceInverterRows sensor)
  | _ => none

/-- `current_power_flow` (fronius.py lines 35-43), applied to the parsed
response in place of the fetch. -/
def current_power_flow (response : JVal) : Option Dict :=
  _current_data response _system_power_flow

/-- `current_system_meter_data` (fronius.py lines 46-54), applied to the
parsed response. -/
def current_system_meter_data (response : JVal) : Option Dict :=
  _current_data response _system_meter_data

/-- `current_system_inverter_data` (fronius.py lines 57-66), applied to
the parsed response. -/
def current_system_inverter_data (response : JVal) : Option Dict :=
  _current_data response _system_inverter_data

/-- `current_meter_data` (fronius.py lines 69-77), applied to the parsed
response. -/
def current_meter_data (response : JVal) : Option Dict :=
  _current_data response _device_meter_data

/-- `current_storage_data` (fronius.py lines 80-88), applied to the
parsed response. -/
def current_storage_data (response : JVal) : Option Dict :=
  _current_data response _device_storage_data

/-- `current_inverter_data` (fronius.py lines 91-99), applied to the
parsed response. -/
def current_inverter_data (response : JVal) : Option Dict :=
  _current_data response _device_inverter_data

/-- `Fronius.__init__` (fronius.py lines 23-32): the stored protocol is
`https` when `useHTTPS` is set, `http` otherwise. -/
def protocolFor (useHTTPS : Bool) : String :=
  if useHTTPS then "https" else "http"

/-- The template `URL_DEVICE_METER` (fronius.py line 10) with its three
placeholders substituted, as `str.format` does in `current_meter_data`. -/
def URL_DEVICE_METER (protocol host deviceId : String) : String :=
  protocol ++ "://" ++ host
    ++ "/solar_api/v1/GetMeterRealtimeData.cgi?Scope=Device&DeviceId="
    ++ deviceId

/-- The URL fetched by `current_meter_data(device)` (fronius.py line 73):
the device-meter template with the client's protocol and host and the
stringified device id substituted. -/
def current_meter_data_url (useHTTPS : Bool) (host : String) (device : Nat) : String :=
  URL_DEVICE_METER (protocolFor useHTTPS) host (toString device)

/-- The keys of a dictionary, in order. -/
def keys (d : Dict) : List String := d.map Prod.fst

/-- Presence of the envelope header and of all five keys `_status_data`
reads: `Head`, `Head.Timestamp`, `Head.Status`, `Status.Code`,
`Status.Reason`, `Status.UserMessage`. -/
def statusKeysPresent (j : JVal) : Bool :=
  match getKey j "Head" with
  | none => false
  | some head =>
      (getKey head "Timestamp").isSome &&
      (match getKey head "Status" with
       | none => false
       | some status =>
          (getKey status "Code").isSome && (getKey status "Reason").isSome &&
          (getKey status "UserMessage").isSome)

/-- Concrete envelope pieces used by the witnesses. -/
def statusEx : JVal := .obj [("Code", .num 0), ("Reason", .str "ok"), ("UserMessage", .str "msg")]

def headEx : JVal := .obj [("Timestamp", .str "t"), ("Status", statusEx)]

/-- A response with a complete header but no `Body` key. -/
def respNoBody : JVal := .obj [("Head", headEx)]

/-- A response with a complete header and a falsy (empty) `Body`. -/
def respEmptyBody : JVal := .obj [("Head", headEx), ("Body", .obj [])]

/-- Modelled from the spec (§4.3 step 4): a fixed unit argument, when
supplied, unconditionally overwrites any unit set by the earlier steps of
the copy rule. -/
def applyFixedUnit (entry : Dict) : Option String → Dict
  | none => entry
  | some u => dictSet entry "unit" (.str u)

/-- The storage payload of the spec's example:
`Modules = [(Enable 1), (Enable 0)]`. -/
def storagePayloadEx : JVal :=
  .obj [("Modules", .arr [.obj [("Enable", .num 1)], .obj [("Enable", .num 0)]])]

/-- The reading stored at `sensor['inverters'][i][field]`. -/
def invField (s : Dict) (i field : String) : Option JVal :=
  match lookup s "inverters" with
  | some (.obj m) =>
      match lookup m i with
      | some (.obj entry) => lookup entry field
      | _ => none
  | _ => none

/-- Whether `sensor['inverters'][i]` exists as a sub-dictionary. -/
def invHasEntry (s : Dict) (i : String) : Bool :=
  match lookup s "inverters" with
  | some (.obj m) =>
      match lookup m i with
      | some (.obj _) => true
      | _ => false
  | _ => false

/-- The numeric sum of a series' per-inverter values (non-numbers count
as zero; a succeeding fold only ever meets numbers). -/
def sumJ (vals : Dict) : Int :=
  (vals.map (fun q => match q.2 with | JVal.num z => z | _ => 0)).sum

/-- Per-inverter integer values rendered as JSON. -/
def numVals (vals : List (String × Int)) : Dict :=
  vals.map (fun p => (p.1, JVal.num p.2))

/-- A vendor series block `\x7bUnit: u, Values: \x7b...\x7d\x7d`. -/
def mkSeries (u : String) (vals : List (String × Int)) : JVal :=
  .obj [("Unit", .str u), ("Values", .obj (numVals vals))]

/-- The payload entry for one optional series. -/
def optSeriesEntry (k : String) : Option (String × List (String × Int)) → Dict
  | none => []
  | some uv => [(k, mkSeries uv.1 uv.2)]

/-- A system-inverter payload with the four optional series. -/
def mkInvPayload (day total year pac : Option (String × List (String × Int))) : JVal :=
  .obj (optSeriesEntry "DAY_ENERGY" day ++ optSeriesEntry "TOTAL_ENERGY" total
        ++ optSeriesEntry "YEAR_ENERGY" year ++ optSeriesEntry "PAC" pac)

/-- The inverter ids of an optional series. -/
def seriesKeys : Option (String × List (String × Int)) → List String
  | none => []
  | some uv => uv.2.map Prod.fst

/-- The sum of a series' values. -/
def sumVals (vals : List (String × Int)) : Int := (vals.map Prod.snd).sum

/-- The sum of an optional series' values (zero when absent). -/
def sumValsOpt : Option (String × List (String × Int)) → Int
  | none => 0
  | some uv => sumVals uv.2

/-- A concrete payload for the C5 witness: `DAY_ENERGY` with unit `D`,
`TOTAL_ENERGY` with unit `T`, `YEAR_ENERGY` with unit `Y`, all over the
single inverter id `1`. -/
def invPayloadEx : JVal :=
  mkInvPayload (some ("D", [("1", 1)])) (some ("T", [("1", 2)]))
    (some ("Y", [("1", 3)])) none

/-- The inverter id `i` is not among the ids the `DAY_ENERGY` loop
creates: the series is absent, or its `Values` is not a mapping
containing `i`. -/
def dayMissing (data : JVal) (i : String) : Bool :=
  match getKey data "DAY_ENERGY" with
  | none => true
  | some day =>
      match getKey day "Values" with
      | some (.obj dv) => !(decide (i ∈ keys dv))
      | _ => true

/-! ## Lemmas and claim theorems -/

example :
    _copy [("X", .obj [("Value", .num 5), ("Unit", .str "W")])] [] "X" "y" none
      = [("y", .obj [("value", .num 5), ("unit", .str "W")])] := rfl

example : _copy [("X", .num 7)] [] "X" "y" none
      = [("y", .obj [("value", .num 7)])] := rfl

example : _copy [] [] "X" "y" none = [("y", .obj [("value", .num 0)])] := rfl

example :
    _copy [("X", .obj [("Value", .num 5), ("Unit", .str "W")])] [] "X" "y" (some "kW")
      = [("y", .obj [("value", .num 5), ("unit", .str "kW")])] := rfl

/-! ### Basic dictionary lemmas -/

@[simp] theorem keys_nil : keys [] = [] := rfl

@[simp] theorem keys_cons (kv : String × JVal) (rest : Dict) :
    keys (kv :: rest) = kv.1 :: keys rest := rfl

theorem lookup_dictSet (d : Dict) (k : String) (v : JVal) (k' : String) :
    lookup (dictSet d k v) k' = if k = k' then some v else lookup d k' := by
  induction d with
  | nil => simp [dictSet, lookup]
  | cons kv rest ih =>
      obtain ⟨a, b⟩ := kv
      by_cases hak : a = k
      · subst hak
        by_cases hk' : a = k' <;> simp [dictSet, lookup, hk']
      · by_cases hk' : a = k'
        · subst hk'
          have : ¬ (k = a) := fun h => hak h.symm
          simp [dictSet, lookup, hak, this]
        · simp [dictSet, lookup, hak, hk', ih]

theorem keys_dictSet_of_mem (d : Dict) (k : String) (v : JVal)
    (h : k ∈ keys d) : keys (dictSet d k v) = keys d := by
  induction d with
  | nil => simp at h
  | cons kv rest ih =>
      obtain ⟨a, b⟩ := kv
      by_cases hak : a = k
      · subst hak
        simp [dictSet]
      · simp [List.mem_cons] at h
        rcases h with h | h
        · exact absurd h.symm hak
        · simp [dictSet, hak, ih h]

theorem keys_dictSet_of_not_mem (d : Dict) (k : String) (v : JVal)
    (h : k ∉ keys d) : keys (dictSet d k v) = keys d ++ [k] := by
  induction d with
  | nil => simp [dictSet]
  | cons kv rest ih =>
      obtain ⟨a, b⟩ := kv
      simp [List.mem_cons] at h
      push_neg at h
      have hak : ¬ (a = k) := fun hh => h.1 hh.symm
      simp [dictSet, hak, ih h.2]

theorem mem_keys_dictSet (d : Dict) (k : String) (v : JVal) (k' : String) :
    k' ∈ keys (dictSet d k v) ↔ k' = k ∨ k' ∈ keys d := by
  by_cases h : k ∈ keys d
  · rw [keys_dictSet_of_mem d k v h]
    constructor
    · exact fun hm => Or.inr hm
    · rintro (rfl | hm)
      · exact h
      · exact hm
  · rw [keys_dictSet_of_not_mem d k v h]
    simp [List.mem_append]
    tauto

theorem nodup_keys_dictSet (d : Dict) (k : String) (v : JVal)
    (h : (keys d).Nodup) : (keys (dictSet d k v)).Nodup := by
  by_cases hm : k ∈ keys d
  · rwa [keys_dictSet_of_mem d k v hm]
  · rw [keys_dictSet_of_not_mem d k v hm]
    simp [List.nodup_append, h, hm]

theorem lookup_eq_none_of_not_mem_keys (d : Dict) (k : String)
    (h : k ∉ keys d) : lookup d k = none := by
  induction d with
  | nil => rfl
  | cons kv rest ih =>
      obtain ⟨a, b⟩ := kv
      simp [List.mem_cons] at h
      push_neg at h
      have hak : ¬ (a = k) := fun hh => h.1 hh.symm
      simp [lookup, hak, ih h.2]

theorem mem_keys_of_lookup (d : Dict) (k : String) (v : JVal)
    (h : lookup d k = some v) : k ∈ keys d := by
  by_contra hm
  rw [lookup_eq_none_of_not_mem_keys d k hm] at h
  exact Option.noConfusion h

theorem lookup_dictUpdate_of_not_mem (d : Dict) (e : Dict) (k : String)
    (h : k ∉ keys e) : lookup (dictUpdate d e) k = lookup d k := by
  induction e generalizing d with
  | nil => rfl
  | cons kv rest ih =>
      obtain ⟨a, b⟩ := kv
      simp [List.mem_cons] at h
      push_neg at h
      have hstep : dictUpdate d ((a, b) :: rest) = dictUpdate (dictSet d a b) rest := rfl
      have hak : ¬ (a = k) := fun hh => h.1 hh.symm
      rw [hstep, ih _ h.2, lookup_dictSet]
      simp [hak]

theorem lookup_dictUpdate_of_lookup (d : Dict) (e : Dict) (k : String) (v : JVal)
    (hnd : (keys e).Nodup) (h : lookup e k = some v) :
    lookup (dictUpdate d e) k = some v := by
  induction e generalizing d with
  | nil => simp [lookup] at h
  | cons kv rest ih =>
      obtain ⟨a, b⟩ := kv
      rw [keys_cons, List.nodup_cons] at hnd
      have hstep : dictUpdate d ((a, b) :: rest) = dictUpdate (dictSet d a b) rest := rfl
      by_cases hak : a = k
      · subst hak
        simp [lookup] at h
        subst h
        rw [hstep, lookup_dictUpdate_of_not_mem _ _ _ hnd.1, lookup_dictSet]
        simp
      · simp [lookup, hak] at h
        rw [hstep, ih _ hnd.2 h]

/-! ### Envelope-header lemmas (used by the C2 and C3 theorems) -/

theorem status_data_eq_of_present (j head status ts code reason msg : JVal)
    (hh : getKey j "Head" = some head)
    (hts : getKey head "Timestamp" = some ts)
    (hst : getKey head "Status" = some status)
    (hc : getKey status "Code" = some code)
    (hr : getKey status "Reason" = some reason)
    (hm : getKey status "UserMessage" = some msg) :
    _status_data j = some
      [("timestamp", .obj [("value", ts)]),
       ("status", status),
       ("status_code", .obj [("value", code)]),
       ("status_reason", .obj [("value", reason)]),
       ("status_message", .obj [("value", msg)])] := by
  simp [_status_data, hh, hts, hst, hc, hr, hm]

theorem status_data_isSome_eq (j : JVal) :
    (_status_data j).isSome = statusKeysPresent j := by
  simp only [_status_data, statusKeysPresent]
  cases getKey j "Head" <;> simp
  case some head =>
  cases getKey head "Timestamp" <;> simp
  case some ts =>
  cases getKey head "Status" <;> simp
  case some status =>
  cases getKey status "Code" <;> simp
  case some code =>
  cases getKey status "Reason" <;> simp
  case some reason =>
  cases getKey status "UserMessage" <;> simp

theorem status_data_of_present (j : JVal) (hs : statusKeysPresent j = true) :
    ∃ head status ts code reason msg,
      getKey j "Head" = some head ∧
      getKey head "Timestamp" = some ts ∧
      getKey head "Status" = some status ∧
      getKey status "Code" = some code ∧
      getKey status "Reason" = some reason ∧
      getKey status "UserMessage" = some msg := by
  have h1 : (_status_data j).isSome = true := by
    rw [status_data_isSome_eq]; exact hs
  simp only [_status_data, Option.bind_eq_bind] at h1
  cases hh : getKey j "Head" with
  | none => simp [hh] at h1
  | some head =>
    simp only [hh, Option.some_bind] at h1
    cases hts : getKey head "Timestamp" with
    | none => simp [hts] at h1
    | some ts =>
      simp only [hts, Option.some_bind] at h1
      cases hst : getKey head "Status" with
      | none => simp [hst] at h1
      | some status =>
        simp only [hst, Option.some_bind] at h1
        cases hc : getKey status "Code" with
        | none => simp [hc] at h1
        | some code =>
          simp only [hc, Option.some_bind] at h1
          cases hr : getKey status "Reason" with
          | none => simp [hr] at h1
          | some reason =>
            simp only [hr, Option.some_bind] at h1
            cases hm : getKey status "UserMessage" with
            | none => simp [hm] at h1
            | some msg =>
                exact ⟨head, status, ts, code, reason, msg,
                  rfl, hts, hst, hc, hr, hm⟩

/-! ### C3: the header bundle -/

/-! ### C2: empty payload yields the header-only bundle -/

/-- C2 counterexample: the claim also covers responses whose `Body` key is
absent, but there line 126 of fronius.py subscripts `json['Body']`
unconditionally, so every endpoint operation raises a `KeyError`
(modelled as `none`) instead of returning the header-only bundle, even
though the header itself is complete. -/
theorem current_data_no_body_raises :
    getKey respNoBody "Body" = none
    ∧ (_status_data respNoBody).isSome = true
    ∧ current_power_flow respNoBody = none
    ∧ current_system_meter_data respNoBody = none
    ∧ current_system_inverter_data respNoBody = none
    ∧ current_meter_data respNoBody = none
    ∧ current_storage_data respNoBody = none
    ∧ current_inverter_data respNoBody = none :=
  ⟨rfl, rfl, rfl, rfl, rfl, rfl, rfl, rfl⟩

/-- C2 (amended): when the header is complete and the `Body` key is
present but falsy — or `Body` is truthy and its `Data` key is present but
falsy — every endpoint operation (any normalizer `f`) returns exactly the
header-only bundle with its five fields and no other keys, raising no
error.  (A response lacking `Body`, or truthy `Body` lacking `Data`,
raises instead; see the counterexample.) -/
theorem current_data_header_only (j : JVal) (f : Dict → JVal → Option Dict) (body : JVal)
    (hs : statusKeysPresent j = true)
    (hb : getKey j "Body" = some body)
    (hfalsy : truthy body = false ∨ ∃ d, getKey body "Data" = some d ∧ truthy d = false) :
    _current_data j f = _status_data j
    ∧ ∃ s, _status_data j = some s
        ∧ keys s = ["timestamp", "status", "status_code", "status_reason", "status_message"] := by
  obtain ⟨head, status, ts, code, reason, msg, hh, hts, hst, hc, hr, hm⟩ :=
    status_data_of_present j hs
  have hsd := status_data_eq_of_present j head status ts code reason msg hh hts hst hc hr hm
  constructor
  · cases htb : truthy body with
    | false => simp [_current_data, hsd, hb, htb]
    | true =>
        rcases hfalsy with hfb | ⟨d, hd, htd⟩
        · exact absurd (htb ▸ hfb) (by simp)
        · simp [_current_data, hsd, hb, htb, hd, htd]
  · exact ⟨_, hsd, rfl⟩

/-- Witness for the amended C2 at a concrete response with an empty
`Body`, through the system-meter endpoint's normalizer. -/
theorem current_data_header_only_witness :
    _current_data respEmptyBody _system_meter_data = _status_data respEmptyBody
    ∧ ∃ s, _status_data respEmptyBody = some s
        ∧ keys s = ["timestamp", "status", "status_code", "status_reason", "status_message"] :=
  current_data_header_only respEmptyBody _system_meter_data (.obj []) rfl rfl (Or.inl rfl)

/-! ### C6: the power-flow normalizer reads inverter "1" only -/

/-- C6: the power-flow normalizer raises a structural/key error whenever
the payload's `Inverters` mapping lacks the key `"1"`, and its result
depends on the payload only through `Site` and `Inverters["1"]` — entries
for other inverter ids are never read. -/
theorem power_flow_reads_inverter_one (sensor : Dict) (data : JVal) :
    (∀ invs, getKey data "Inverters" = some invs → getKey invs "1" = none →
       _system_power_flow sensor data = none)
  ∧ (∀ data2, getKey data "Site" = getKey data2 "Site" →
       (getKey data "Inverters").bind (fun v => getKey v "1")
         = (getKey data2 "Inverters").bind (fun v => getKey v "1") →
       _system_power_flow sensor data = _system_power_flow sensor data2) := by
  constructor
  · intro invs hinv h1
    simp only [_system_power_flow, Option.bind_eq_bind]
    cases hsite : getKey data "Site" <;> simp [hsite, hinv, h1]
  · intro data2 hsite hinv1
    simp only [_system_power_flow, Option.bind_eq_bind]
    rw [← hsite]
    cases h1 : getKey data "Site" with
    | none => simp
    | some site =>
        simp only [Option.some_bind]
        rw [← Option.bind_assoc, ← Option.bind_assoc, hinv1]

/-- Witness for C6: a power-flow payload whose `Inverters` mapping only
has the key `"2"` makes the normalizer raise. -/
theorem power_flow_reads_inverter_one_witness :
    _system_power_flow [] (.obj [("Site", .obj []), ("Inverters", .obj [("2", .obj [])])])
      = none :=
  (power_flow_reads_inverter_one []
      (.obj [("Site", .obj []), ("Inverters", .obj [("2", .obj [])])])).1
    (.obj [("2", .obj [])]) rfl rfl

/-! ### C1: the `_copy` four-step rule -/

/-- C1: `_copy` follows the four-step rule.  If the source field is a
mapping with a `Value` key, the target entry is built from that value and
the mapping's optional `Unit`; else if the source field exists, the entry
wraps the raw value with no unit; else the entry is a zero reading; in
every case a supplied fixed unit overwrites the entry's unit, and no
error is raised (`_copy` is total). -/
theorem copy_four_step_rule (source target : Dict) (sid tid : String)
    (u : Option String) :
    (∀ kvs v, lookup source sid = some (.obj kvs) → lookup kvs "Value" = some v →
        _copy source target sid tid u = dictSet target tid (.obj (applyFixedUnit
          (match lookup kvs "Unit" with
           | some su => [("value", v), ("unit", su)]
           | none => [("value", v)]) u)))
  ∧ (∀ x, lookup source sid = some x →
        (∀ kvs, x = .obj kvs → lookup kvs "Value" = none) →
        _copy source target sid tid u
          = dictSet target tid (.obj (applyFixedUnit [("value", x)] u)))
  ∧ (lookup source sid = none →
        _copy source target sid tid u
          = dictSet target tid (.obj (applyFixedUnit [("value", .num 0)] u)))
    := by
  refine ⟨?_, ?_, ?_⟩
  · intro kvs v h1 h2
    cases h3 : lookup kvs "Unit" <;> cases u <;>
      simp [_copy, h1, h2, h3, applyFixedUnit]
  · intro x h1 h2
    cases x <;> cases u <;>
      simp_all [_copy, applyFixedUnit]
  · intro h1
    cases u <;> simp [_copy, h1, applyFixedUnit]

/-- Witness for C1 at the spec's own example: source
`X = (Value 5, Unit W)` with fixed override unit `kW`. -/
theorem copy_four_step_rule_witness :
    _copy [("X", .obj [("Value", .num 5), ("Unit", .str "W")])] [] "X" "y" (some "kW")
      = dictSet [] "y"
          (.obj (applyFixedUnit [("value", .num 5), ("unit", .str "W")] (some "kW"))) :=
  (copy_four_step_rule [("X", .obj [("Value", .num 5), ("Unit", .str "W")])]
      [] "X" "y" (some "kW")).1
    [("Value", .num 5), ("Unit", .str "W")] (.num 5) rfl rfl

/-! ### C10: the device-meter URL -/

/-- C10: `current_meter_data(device)` targets the device-meter template
with the scheme (`https` exactly when the secure flag is set), host and
device id substituted, and the resulting URL contains
`Scope=Device&DeviceId=<device>`. -/
theorem current_meter_data_url_spec (useHTTPS : Bool) (host : String) (device : Nat) :
    current_meter_data_url useHTTPS host device
      = protocolFor useHTTPS ++ "://" ++ host
          ++ "/solar_api/v1/GetMeterRealtimeData.cgi?Scope=Device&DeviceId="
          ++ toString device
  ∧ protocolFor true = "https" ∧ protocolFor false = "http"
  ∧ ∃ pre post, current_meter_data_url useHTTPS host device
      = pre ++ ("Scope=Device&DeviceId=" ++ toString device) ++ post := by
  refine ⟨rfl, rfl, rfl, protocolFor useHTTPS ++ "://" ++ host
      ++ "/solar_api/v1/GetMeterRealtimeData.cgi?", "", ?_⟩
  show protocolFor useHTTPS ++ "://" ++ host
      ++ "/solar_api/v1/GetMeterRealtimeData.cgi?Scope=Device&DeviceId="
      ++ toString device = _
  rw [String.append_empty]
  rw [show ("/solar_api/v1/GetMeterRealtimeData.cgi?Scope=Device&DeviceId=" : String)
        = "/solar_api/v1/GetMeterRealtimeData.cgi?" ++ "Scope=Device&DeviceId=" from rfl]
  simp only [String.append_assoc]

/-! ### C8: device meter merge vs system meter collection -/

theorem lookup_isSome_of_mem_keys (d : Dict) (k : String) (h : k ∈ keys d) :
    (lookup d k).isSome := by
  induction d with
  | nil => simp at h
  | cons kv rest ih =>
      obtain ⟨a, b⟩ := kv
      by_cases hak : a = k
      · simp [lookup, hak]
      · rw [keys_cons, List.mem_cons] at h
        rcases h with h | h
        · exact absurd h.symm hak
        · simp [lookup, hak, ih h]

theorem not_mem_keys_of_lookup_eq_none (d : Dict) (k : String)
    (h : lookup d k = none) : k ∉ keys d := by
  intro hm
  have := lookup_isSome_of_mem_keys d k hm
  rw [h] at this
  exact Bool.noConfusion this

theorem nodup_keys_copy (source t : Dict) (sid tid : String) (u : Option String)
    (h : (keys t).Nodup) : (keys (_copy source t sid tid u)).Nodup :=
  nodup_keys_dictSet t tid _ h

theorem lookup_copy_ne (source t : Dict) (sid tid k : String) (u : Option String)
    (h : ¬ (tid = k)) : lookup (_copy source t sid tid u) k = lookup t k := by
  simp only [_copy]
  rw [lookup_dictSet]
  simp [h]

theorem nodup_keys_copyTable (source : Dict) (rows : List CopyRow) :
    ∀ t : Dict, (keys t).Nodup → (keys (copyTable source rows t)).Nodup := by
  induction rows with
  | nil => intro t h; exact h
  | cons r rest ih =>
      intro t h
      exact ih _ (nodup_keys_copy source t r.sid r.tid r.unit h)

theorem lookup_copyTable_not_mem (source : Dict) (rows : List CopyRow) (k : String) :
    ∀ t : Dict, (∀ r ∈ rows, ¬ (r.tid = k)) →
      lookup (copyTable source rows t) k = lookup t k := by
  induction rows with
  | nil => intro t _; rfl
  | cons r rest ih =>
      intro t hk
      have h2 := ih (_copy source t r.sid r.tid r.unit)
        (fun q hq => hk q (List.mem_cons_of_mem _ hq))
      calc lookup (copyTable source (r :: rest) t) k
          = lookup (_copy source t r.sid r.tid r.unit) k := h2
        _ = lookup t k :=
            lookup_copy_ne source t r.sid r.tid k r.unit (hk r (List.mem_cons_self _ _))

theorem meter_data_nodup (data : JVal) (md : Dict) (h : _meter_data data = some md) :
    (keys md).Nodup := by
  cases data <;> simp only [_meter_data] at h <;> try exact Option.noConfusion h
  case obj d =>
  rcases hdet : lookup d "Details" with _ | det
  · simp only [hdet, Option.some.injEq] at h
    subst h
    exact nodup_keys_copyTable d meterRows [] (by simp)
  · simp only [hdet] at h
    cases det <;> simp only [Option.some.injEq] at h <;> try simp at h
    case obj detd =>
    subst h
    exact nodup_keys_copyTable detd detailsRows _
      (nodup_keys_copyTable d meterRows [] (by simp))

theorem meter_data_no_meters (data : JVal) (md : Dict)
    (h : _meter_data data = some md) : lookup md "meters" = none := by
  cases data <;> simp only [_meter_data] at h <;> try exact Option.noConfusion h
  case obj d =>
  rcases hdet : lookup d "Details" with _ | det
  · simp only [hdet, Option.some.injEq] at h
    subst h
    rw [lookup_copyTable_not_mem d meterRows "meters" [] (by decide)]
    rfl
  · simp only [hdet] at h
    cases det <;> simp only [Option.some.injEq] at h <;> try simp at h
    case obj detd =>
    subst h
    rw [lookup_copyTable_not_mem detd detailsRows "meters" _ (by decide),
        lookup_copyTable_not_mem d meterRows "meters" [] (by decide)]
    rfl

theorem meters_fold (m : List (String × JVal)) :
    ∀ acc : Dict, (∀ q ∈ m, (_meter_data q.2).isSome) →
      ∃ meters, m.foldlM meterStep acc = some meters
        ∧ (∀ k, k ∉ m.map Prod.fst → lookup meters k = lookup acc k)
        ∧ ((m.map Prod.fst).Nodup →
            ∀ i p, (i, p) ∈ m → ∀ mdp, _meter_data p = some mdp →
              lookup meters i = some (.obj mdp)) := by
  induction m with
  | nil =>
      intro acc _
      exact ⟨acc, rfl, fun k _ => rfl, fun _ i p hip => absurd hip (List.not_mem_nil _)⟩
  | cons ab rest ih =>
      obtain ⟨a, b⟩ := ab
      intro acc hall
      have hb : (_meter_data b).isSome := hall (a, b) (List.mem_cons_self _ _)
      rcases hmdb : _meter_data b with _ | mdb
      · rw [hmdb] at hb; exact Bool.noConfusion hb
      · have hrest : ∀ q ∈ rest, (_meter_data q.2).isSome :=
          fun q hq => hall q (List.mem_cons_of_mem _ hq)
        obtain ⟨meters, hfold, hpres, hlook⟩ := ih (dictSet acc a (.obj mdb)) hrest
        refine ⟨meters, ?_, ?_, ?_⟩
        · show List.foldlM meterStep acc ((a, b) :: rest) = some meters
          rw [List.foldlM_cons]
          have hstep : meterStep acc (a, b) = some (dictSet acc a (.obj mdb)) := by
            simp [meterStep, hmdb]
          rw [hstep]
          exact hfold
        · intro k hk
          rw [List.map_cons, List.mem_cons] at hk
          push_neg at hk
          have hak : ¬ (a = k) := fun hh => hk.1 hh.symm
          rw [hpres k hk.2, lookup_dictSet]
          simp [hak]
        · intro hnd i p hip mdp hmdp
          rw [List.map_cons, List.nodup_cons] at hnd
          rcases List.mem_cons.mp hip with heq | hmem
          · injection heq with h1 h2
            subst h1; subst h2
            rw [hmdp] at hmdb
            injection hmdb with hmdb
            subst hmdb
            rw [hpres i hnd.1, lookup_dictSet]
            simp
          · exact hlook hnd.2 i p hmem mdp hmdp

/-- C8: the single-device meter operation merges the meter normalizer's
fields directly into the top-level bundle (no `meters` wrapper is
created), while the system-wide meter operation applies the same
normalizer to every entry of the payload and collects the results under
a nested `meters` mapping keyed by the vendor meter id. -/
theorem meter_device_vs_system (sensor : Dict) (data : JVal) (md : Dict)
    (h : _meter_data data = some md) :
    (_device_meter_data sensor data = some (dictUpdate sensor md)
      ∧ (∀ k v, lookup md k = some v → lookup (dictUpdate sensor md) k = some v)
      ∧ lookup md "meters" = none
      ∧ lookup (dictUpdate sensor md) "meters" = lookup sensor "meters")
  ∧ (∀ m : List (String × JVal), (m.map Prod.fst).Nodup →
       (∀ q ∈ m, (_meter_data q.2).isSome) →
       ∃ meters, _system_meter_data sensor (.obj m)
           = some (dictSet sensor "meters" (.obj meters))
         ∧ ∀ i p, (i, p) ∈ m → ∀ mdp, _meter_data p = some mdp →
             lookup meters i = some (.obj mdp)) := by
  have hnodup := meter_data_nodup data md h
  have hnometers := meter_data_no_meters data md h
  constructor
  · refine ⟨by simp [_device_meter_data, h], ?_, hnometers, ?_⟩
    · intro k v hkv
      exact lookup_dictUpdate_of_lookup sensor md k v hnodup hkv
    · exact lookup_dictUpdate_of_not_mem sensor md "meters"
        (not_mem_keys_of_lookup_eq_none md "meters" hnometers)
  · intro m hnd hall
    obtain ⟨meters, hfold, _, hlook⟩ := meters_fold m ([] : Dict) hall
    refine ⟨meters, ?_, fun i p hip mdp hmdp => hlook hnd i p hip mdp hmdp⟩
    simp [_system_meter_data, hfold]

/-- Witness for C8 at a one-field meter payload and a one-meter system
payload. -/
theorem meter_device_vs_system_witness :
    ∃ md, _meter_data (.obj [("Enable", .num 1)]) = some md
      ∧ _device_meter_data [] (.obj [("Enable", .num 1)]) = some (dictUpdate [] md)
      ∧ lookup md "meters" = none
      ∧ ∃ meters, _system_meter_data [] (.obj [("m0", .obj [("Enable", .num 1)])])
            = some (dictSet [] "meters" (.obj meters))
          ∧ ∀ i p, (i, p) ∈ [("m0", JVal.obj [("Enable", .num 1)])] →
              ∀ mdp, _meter_data p = some mdp → lookup meters i = some (.obj mdp) := by
  have h := meter_device_vs_system ([] : Dict) (.obj [("Enable", .num 1)]) _ rfl
  obtain ⟨meters, hsys, hlook⟩ := h.2 [("m0", .obj [("Enable", .num 1)])]
    (by simp) (by intro q hq; simp at hq; subst hq; rfl)
  exact ⟨_, rfl, h.1.1, h.1.2.2.1, meters, hsys, hlook⟩

/-! ### C9: device storage data -/

theorem natLookup_append_left (a e : List (Nat × JVal)) (k : Nat) (v : JVal)
    (h : natLookup a k = some v) : natLookup (a ++ e) k = some v := by
  induction a with
  | nil => simp [natLookup] at h
  | cons p rest ih =>
      obtain ⟨pk, pv⟩ := p
      by_cases hpk : pk = k
      · subst hpk
        simp [natLookup] at h ⊢
        exact h
      · simp [natLookup, hpk] at h ⊢
        exact ih h

theorem natLookup_none_append (a e : List (Nat × JVal)) (k : Nat)
    (h : natLookup a k = none) : natLookup (a ++ e) k = natLookup e k := by
  induction a with
  | nil => rfl
  | cons p rest ih =>
      obtain ⟨pk, pv⟩ := p
      by_cases hpk : pk = k
      · simp [natLookup, hpk] at h
      · simp [natLookup, hpk] at h ⊢
        exact ih h

theorem natLookup_none_of_lt (acc : List (Nat × JVal)) (n : Nat)
    (hacc : ∀ p ∈ acc, p.1 < n) : natLookup acc n = none := by
  induction acc with
  | nil => rfl
  | cons p rest ih =>
      obtain ⟨pk, pv⟩ := p
      have h1 : pk < n := hacc (pk, pv) (List.mem_cons_self _ _)
      have h2 : ¬ (pk = n) := Nat.ne_of_lt h1
      simp only [natLookup, h2, if_false]
      exact ih (fun q hq => hacc q (List.mem_cons_of_mem _ hq))

theorem modulesLoop_spec (mods : List JVal) :
    ∀ n acc ms, modulesLoop mods n acc = some ms →
      (∀ p ∈ acc, p.1 < n) →
      (∀ k v, natLookup acc k = some v → natLookup ms k = some v)
      ∧ (∀ i mod md, mods.get? i = some mod → _module_data mod = some md →
          natLookup ms (n + i) = some (.obj md)) := by
  induction mods with
  | nil =>
      intro n acc ms h hacc
      simp only [modulesLoop, Option.some.injEq] at h
      subst h
      refine ⟨fun k v hkv => hkv, ?_⟩
      intro i mod md hget
      simp [List.get?] at hget
  | cons a rest ih =>
      intro n acc ms h hacc
      simp only [modulesLoop, Option.bind_eq_bind] at h
      cases hmd : _module_data a with
      | none => rw [hmd] at h; simp at h
      | some mda =>
          simp only [hmd, Option.some_bind] at h
          have hacc' : ∀ p ∈ acc ++ [(n, JVal.obj mda)], p.1 < n + 1 := by
            intro p hp
            rcases List.mem_append.mp hp with hp | hp
            · exact Nat.lt_succ_of_lt (hacc p hp)
            · simp at hp
              subst hp
              exact Nat.lt_succ_self n
          obtain ⟨ha, hb⟩ := ih (n + 1) _ ms h hacc'
          constructor
          · intro k v hkv
            exact ha k v (natLookup_append_left _ _ _ _ hkv)
          · intro i mod md hget hmdm
            cases i with
            | zero =>
                simp only [List.get?, Option.some.injEq] at hget
                subst hget
                rw [hmdm] at hmd
                injection hmd with hmd
                subst hmd
                have h0 : natLookup (acc ++ [(n, JVal.obj md)]) n = some (.obj md) := by
                  rw [natLookup_none_append _ _ _ (natLookup_none_of_lt acc n hacc)]
                  simp [natLookup]
                have h1 := ha n _ h0
                simpa using h1
            | succ k =>
                have h1 := hb k mod md (by simpa [List.get?] using hget) hmdm
                rw [show n + (k + 1) = n + 1 + k by omega]
                exact h1

theorem storageModules_spec (s0 : Dict) (data : JVal) (s : Dict)
    (h : storageModules s0 data = some s) :
    (∀ k, ¬ (k = "modules") → lookup s k = lookup s0 k)
  ∧ (∀ mods, getKey data "Modules" = some (.arr mods) →
       ∃ ms, lookup s "modules" = some (.natObj ms)
         ∧ ∀ i mod md, mods.get? i = some mod → _module_data mod = some md →
             natLookup ms i = some (.obj md)) := by
  simp only [storageModules] at h
  cases hmods : getKey data "Modules" with
  | none =>
      rw [hmods] at h
      injection h with h
      subst h
      exact ⟨fun k _ => rfl, fun mods heq => absurd heq (by simp [hmods])⟩
  | some m =>
      rw [hmods] at h
      cases m <;> try exact Option.noConfusion h
      case arr mods =>
      simp only [Option.bind_eq_bind] at h
      cases hloop : modulesLoop mods 0 [] with
      | none => rw [hloop] at h; simp at h
      | some ms =>
          simp only [hloop, Option.some_bind, Option.pure_def, Option.some.injEq] at h
          subst h
          constructor
          · intro k hk
            have hkm : ¬ ("modules" = k) := fun hh => hk hh.symm
            rw [lookup_dictSet]
            simp [hkm]
          · intro mods' heq
            injection heq with heq
            injection heq with heq
            subst heq
            refine ⟨ms, ?_, ?_⟩
            · rw [lookup_dictSet]
              simp
            · intro i mod md hget hmd
              have h1 := (modulesLoop_spec mods 0 [] ms hloop (by simp)).2 i mod md hget hmd
              simpa using h1

theorem controller_data_nodup (c : JVal) (cd : Dict)
    (h : _controller_data c = some cd) : (keys cd).Nodup := by
  cases c <;> simp only [_controller_data] at h <;> try exact Option.noConfusion h
  case obj d =>
  rcases hdet : lookup d "Details" with _ | det
  · simp only [hdet, Option.some.injEq] at h
    subst h
    exact nodup_keys_copyTable d controllerRows [] (by simp)
  · simp only [hdet] at h
    cases det <;> simp only [Option.some.injEq] at h <;> try simp at h
    case obj detd =>
    subst h
    exact nodup_keys_copyTable detd detailsRows _
      (nodup_keys_copyTable d controllerRows [] (by simp))

theorem controller_data_no_modules (c : JVal) (cd : Dict)
    (h : _controller_data c = some cd) : lookup cd "modules" = none := by
  cases c <;> simp only [_controller_data] at h <;> try exact Option.noConfusion h
  case obj d =>
  rcases hdet : lookup d "Details" with _ | det
  · simp only [hdet, Option.some.injEq] at h
    subst h
    rw [lookup_copyTable_not_mem d controllerRows "modules" [] (by decide)]
    rfl
  · simp only [hdet] at h
    cases det <;> simp only [Option.some.injEq] at h <;> try simp at h
    case obj detd =>
    subst h
    rw [lookup_copyTable_not_mem detd detailsRows "modules" _ (by decide),
        lookup_copyTable_not_mem d controllerRows "modules" [] (by decide)]
    rfl

/-- C9: whenever the device-storage normalizer succeeds, the normalized
`Controller` fields (when `Controller` is present) appear directly in the
bundle, and a present `Modules` sequence appears under `modules` keyed by
the zero-based position index, each module put through the module
normalizer. -/
theorem storage_contract (sensor : Dict) (data : JVal) (s : Dict)
    (h : _device_storage_data sensor data = some s) :
    (∀ c cd, getKey data "Controller" = some c → _controller_data c = some cd →
        ∀ k v, lookup cd k = some v → lookup s k = some v)
  ∧ (∀ mods, getKey data "Modules" = some (.arr mods) →
        ∃ ms, lookup s "modules" = some (.natObj ms)
          ∧ ∀ i mod md, mods.get? i = some mod → _module_data mod = some md →
              natLookup ms i = some (.obj md)) := by
  simp only [_device_storage_data, Option.bind_eq_bind] at h
  cases hctl : getKey data "Controller" with
  | none =>
      simp only [hctl, Option.some_bind] at h
      have hsm := storageModules_spec sensor data s h
      refine ⟨?_, hsm.2⟩
      intro c cd hc
      exact absurd hc (by simp)
  | some c =>
      simp only [hctl] at h
      cases hcd : _controller_data c with
      | none => rw [hcd] at h; simp at h
      | some cd =>
          simp only [hcd, Option.pure_def, Option.some_bind] at h
          have hsm := storageModules_spec (dictUpdate sensor cd) data s h
          refine ⟨?_, hsm.2⟩
          intro c' cd' hc' hcd' k v hkv
          injection hc' with hc'
          subst hc'
          rw [hcd] at hcd'
          injection hcd' with hcd'
          subst hcd'
          have hkne : ¬ (k = "modules") := by
            intro hk
            subst hk
            rw [controller_data_no_modules c cd hcd] at hkv
            exact Option.noConfusion hkv
          rw [hsm.1 k hkne]
          exact lookup_dictUpdate_of_lookup sensor cd k v
            (controller_data_nodup c cd hcd) hkv

/-- Witness for C9 at the spec's example payload. -/
theorem storage_contract_witness :
    ∃ s, _device_storage_data [] storagePayloadEx = some s
      ∧ ∃ ms, lookup s "modules" = some (.natObj ms)
          ∧ ∀ i mod md,
              [JVal.obj [("Enable", .num 1)], JVal.obj [("Enable", .num 0)]].get? i = some mod →
              _module_data mod = some md → natLookup ms i = some (.obj md) := by
  refine ⟨_, rfl, ?_⟩
  exact (storage_contract [] storagePayloadEx _ rfl).2
    [.obj [("Enable", .num 1)], .obj [("Enable", .num 0)]] rfl

/-! ### C4, C5, C7: the system inverter series -/

/-- `dictSet` of the same key twice keeps only the second value. -/
theorem dictSet_dictSet (d : Dict) (k : String) (v w : JVal) :
    dictSet (dictSet d k v) k w = dictSet d k w := by
  induction d with
  | nil => simp [dictSet]
  | cons kv rest ih =>
      obtain ⟨a, b⟩ := kv
      by_cases hak : a = k
      · subst hak
        simp [dictSet]
      · simp [dictSet, hak, ih]

theorem seriesStep_existing_elim (data : JVal) (ukey field agg : String)
    (hagg : ¬ (agg = "inverters")) (s : Dict) (j : String) (w : JVal) (s' : Dict)
    (h : seriesStep data ukey field agg false s (j, w) = some s') :
    ∃ us u m entry e n z,
      getKey data ukey = some us ∧ getKey us "Unit" = some u ∧
      lookup s "inverters" = some (.obj m) ∧ lookup m j = some (.obj entry) ∧
      lookup s agg = some (.obj e) ∧ lookup e "value" = some (.num n) ∧
      w = .num z ∧
      s' = dictSet (dictSet s "inverters"
              (.obj (dictSet m j (.obj (dictSet entry field
                (.obj [("value", w), ("unit", u)]))))))
            agg (.obj (dictSet e "value" (.num (n + z)))) := by
  simp only [seriesStep, Option.bind_eq_bind, Bool.false_eq_true, if_false] at h
  cases hus : getKey data ukey with
  | none => rw [hus] at h; simp at h
  | some us =>
  simp only [hus, Option.some_bind] at h
  cases hu : getKey us "Unit" with
  | none => rw [hu] at h; simp at h
  | some u =>
  simp only [hu, Option.some_bind, setInverterExisting] at h
  cases hm : lookup s "inverters" with
  | none => rw [hm] at h; simp at h
  | some mv =>
  rw [hm] at h
  cases mv <;> try (simp at h)
  case obj m =>
  cases hmj : lookup m j with
  | none => rw [hmj] at h; simp at h
  | some entv =>
  rw [hmj] at h
  cases entv <;> try (simp at h)
  case obj entry =>
  simp only [Option.some_bind, addToAgg] at h
  have hagg2 : ¬ ("inverters" = agg) := fun hh => hagg hh.symm
  rw [lookup_dictSet, if_neg hagg2] at h
  cases he : lookup s agg with
  | none => rw [he] at h; simp at h
  | some ev =>
  rw [he] at h
  cases ev <;> try (simp at h)
  case obj e =>
  cases hev : lookup e "value" with
  | none => rw [hev] at h; simp at h
  | some cur =>
  rw [hev] at h
  try simp only [Option.bind_eq_bind] at h
  cases cur <;> cases w <;> simp only [jAdd] at h <;> try (simp at h)
  case num.num n z =>
  exact ⟨us, u, m, entry, e, n, z, rfl, hu, rfl, hmj, rfl, hev, rfl, h.symm⟩

theorem seriesStep_fresh_elim (data : JVal) (ukey field agg : String)
    (hagg : ¬ (agg = "inverters")) (s : Dict) (j : String) (w : JVal) (s' : Dict)
    (h : seriesStep data ukey field agg true s (j, w) = some s') :
    ∃ us u m e n z,
      getKey data ukey = some us ∧ getKey us "Unit" = some u ∧
      lookup s "inverters" = some (.obj m) ∧
      lookup s agg = some (.obj e) ∧ lookup e "value" = some (.num n) ∧
      w = .num z ∧
      s' = dictSet (dictSet s "inverters"
              (.obj (dictSet m j (.obj [(field,
                (.obj [("value", w), ("unit", u)]))]))))
            agg (.obj (dictSet e "value" (.num (n + z)))) := by
  simp only [seriesStep, Option.bind_eq_bind, if_true] at h
  cases hus : getKey data ukey with
  | none => rw [hus] at h; simp at h
  | some us =>
  simp only [hus, Option.some_bind] at h
  cases hu : getKey us "Unit" with
  | none => rw [hu] at h; simp at h
  | some u =>
  simp only [hu, Option.some_bind, setInverterFresh] at h
  cases hm : lookup s "inverters" with
  | none => rw [hm] at h; simp at h
  | some mv =>
  rw [hm] at h
  cases mv <;> try (simp at h)
  case obj m =>
  simp only [Option.some_bind, addToAgg] at h
  have hagg2 : ¬ ("inverters" = agg) := fun hh => hagg hh.symm
  rw [lookup_dictSet, if_neg hagg2] at h
  cases he : lookup s agg with
  | none => rw [he] at h; simp at h
  | some ev =>
  rw [he] at h
  cases ev <;> try (simp at h)
  case obj e =>
  cases hev : lookup e "value" with
  | none => rw [hev] at h; simp at h
  | some cur =>
  rw [hev] at h
  try simp only [Option.bind_eq_bind] at h
  cases cur <;> cases w <;> simp only [jAdd] at h <;> try (simp at h)
  case num.num n z =>
  exact ⟨us, u, m, e, n, z, rfl, hu, rfl, rfl, hev, rfl, h.symm⟩

theorem seriesFold_preserves_invField (data : JVal) (ukey field agg : String)
    (hagg : ¬ (agg = "inverters")) (fresh : Bool) (i f : String) :
    ∀ (vals s s' : Dict), vals.foldlM (seriesStep data ukey field agg fresh) s = some s' →
      i ∉ keys vals → invField s' i f = invField s i f := by
  intro vals
  induction vals with
  | nil =>
      intro s s' h _
      injection h with h
      subst h
      rfl
  | cons jw rest ih =>
      intro s s' h hmem
      obtain ⟨j, w⟩ := jw
      rw [keys_cons, List.mem_cons] at hmem
      push_neg at hmem
      rw [List.foldlM_cons] at h
      cases hstep : seriesStep data ukey field agg fresh s (j, w) with
      | none => rw [hstep] at h; simp at h
      | some s1 =>
          rw [hstep] at h
          simp only [Option.bind_eq_bind, Option.some_bind] at h
          rw [ih s1 s' h hmem.2]
          have hji : ¬ (j = i) := fun hh => hmem.1 hh.symm
          cases fresh
          case false =>
            obtain ⟨us, u, m, entry, e, n, z, hus, hu, hm, hmj, he, hev, hw, hs1⟩ :=
              seriesStep_existing_elim data ukey field agg hagg s j w s1 hstep
            subst hs1
            simp [invField, lookup_dictSet, hagg, hji, hm]
          case true =>
            obtain ⟨us, u, m, e, n, z, hus, hu, hm, he, hev, hw, hs1⟩ :=
              seriesStep_fresh_elim data ukey field agg hagg s j w s1 hstep
            subst hs1
            simp [invField, lookup_dictSet, hagg, hji, hm]

theorem seriesFold_preserves_other_field (data : JVal) (ukey field agg : String)
    (hagg : ¬ (agg = "inverters")) (i f : String) (hf : ¬ (f = field)) :
    ∀ (vals s s' : Dict), vals.foldlM (seriesStep data ukey field agg false) s = some s' →
      invField s' i f = invField s i f := by
  intro vals
  induction vals with
  | nil =>
      intro s s' h
      injection h with h
      subst h
      rfl
  | cons jw rest ih =>
      intro s s' h
      obtain ⟨j, w⟩ := jw
      rw [List.foldlM_cons] at h
      cases hstep : seriesStep data ukey field agg false s (j, w) with
      | none => rw [hstep] at h; simp at h
      | some s1 =>
          rw [hstep] at h
          simp only [Option.bind_eq_bind, Option.some_bind] at h
          rw [ih s1 s' h]
          obtain ⟨us, u, m, entry, e, n, z, hus, hu, hm, hmj, he, hev, hw, hs1⟩ :=
            seriesStep_existing_elim data ukey field agg hagg s j w s1 hstep
          subst hs1
          by_cases hji : j = i
          · subst hji
            have hff : ¬ (field = f) := fun hh => hf hh.symm
            simp [invField, lookup_dictSet, hagg, hm, hmj, hff]
          · simp [invField, lookup_dictSet, hagg, hji, hm]

theorem seriesFold_preserves_other_key (data : JVal) (ukey field agg : String)
    (hagg : ¬ (agg = "inverters")) (fresh : Bool) (k : String)
    (hk1 : ¬ (k = agg)) (hk2 : ¬ (k = "inverters")) :
    ∀ (vals s s' : Dict), vals.foldlM (seriesStep data ukey field agg fresh) s = some s' →
      lookup s' k = lookup s k := by
  intro vals
  induction vals with
  | nil =>
      intro s s' h
      injection h with h
      subst h
      rfl
  | cons jw rest ih =>
      intro s s' h
      obtain ⟨j, w⟩ := jw
      rw [List.foldlM_cons] at h
      cases hstep : seriesStep data ukey field agg fresh s (j, w) with
      | none => rw [hstep] at h; simp at h
      | some s1 =>
          rw [hstep] at h
          simp only [Option.bind_eq_bind, Option.some_bind] at h
          rw [ih s1 s' h]
          have hka : ¬ (agg = k) := fun hh => hk1 hh.symm
          have hki : ¬ ("inverters" = k) := fun hh => hk2 hh.symm
          cases fresh
          case false =>
            obtain ⟨us, u, m, entry, e, n, z, hus, hu, hm, hmj, he, hev, hw, hs1⟩ :=
              seriesStep_existing_elim data ukey field agg hagg s j w s1 hstep
            subst hs1
            rw [lookup_dictSet, if_neg hka, lookup_dictSet, if_neg hki]
          case true =>
            obtain ⟨us, u, m, e, n, z, hus, hu, hm, he, hev, hw, hs1⟩ :=
              seriesStep_fresh_elim data ukey field agg hagg s j w s1 hstep
            subst hs1
            rw [lookup_dictSet, if_neg hka, lookup_dictSet, if_neg hki]

theorem seriesFold_existing_hasEntry (data : JVal) (ukey field agg : String)
    (hagg : ¬ (agg = "inverters")) (i : String) :
    ∀ (vals s s' : Dict), vals.foldlM (seriesStep data ukey field agg false) s = some s' →
      invHasEntry s' i = invHasEntry s i := by
  intro vals
  induction vals with
  | nil =>
      intro s s' h
      injection h with h
      subst h
      rfl
  | cons jw rest ih =>
      intro s s' h
      obtain ⟨j, w⟩ := jw
      rw [List.foldlM_cons] at h
      cases hstep : seriesStep data ukey field agg false s (j, w) with
      | none => rw [hstep] at h; simp at h
      | some s1 =>
          rw [hstep] at h
          simp only [Option.bind_eq_bind, Option.some_bind] at h
          rw [ih s1 s' h]
          obtain ⟨us, u, m, entry, e, n, z, hus, hu, hm, hmj, he, hev, hw, hs1⟩ :=
            seriesStep_existing_elim data ukey field agg hagg s j w s1 hstep
          subst hs1
          by_cases hji : j = i
          · subst hji
            simp [invHasEntry, lookup_dictSet, hagg, hm, hmj]
          · simp [invHasEntry, lookup_dictSet, hagg, hji, hm]

theorem seriesFold_fresh_hasEntry (data : JVal) (ukey field agg : String)
    (hagg : ¬ (agg = "inverters")) (i : String) :
    ∀ (vals s s' : Dict), vals.foldlM (seriesStep data ukey field agg true) s = some s' →
      invHasEntry s' i = (invHasEntry s i || decide (i ∈ keys vals)) := by
  intro vals
  induction vals with
  | nil =>
      intro s s' h
      injection h with h
      subst h
      simp
  | cons jw rest ih =>
      intro s s' h
      obtain ⟨j, w⟩ := jw
      rw [List.foldlM_cons] at h
      cases hstep : seriesStep data ukey field agg true s (j, w) with
      | none => rw [hstep] at h; simp at h
      | some s1 =>
          rw [hstep] at h
          simp only [Option.bind_eq_bind, Option.some_bind] at h
          rw [ih s1 s' h]
          obtain ⟨us, u, m, e, n, z, hus, hu, hm, he, hev, hw, hs1⟩ :=
            seriesStep_fresh_elim data ukey field agg hagg s j w s1 hstep
          subst hs1
          by_cases hji : j = i
          · subst hji
            simp [invHasEntry, lookup_dictSet, hagg, hm]
          · have hij : ¬ (i = j) := fun hh => hji hh.symm
            simp [invHasEntry, lookup_dictSet, hagg, hji, hij, hm]

/-- Rewriting a key with the value it already has leaves a dictionary
unchanged. -/
theorem dictSet_self (d : Dict) (k : String) (v : JVal)
    (h : lookup d k = some v) : dictSet d k v = d := by
  induction d with
  | nil => simp [lookup] at h
  | cons kv rest ih =>
      obtain ⟨a, b⟩ := kv
      by_cases hak : a = k
      · subst hak
        simp [lookup] at h
        subst h
        simp [dictSet]
      · simp [lookup, hak] at h
        simp [dictSet, hak, ih h]

theorem seriesFold_agg (data : JVal) (ukey field agg : String)
    (hagg : ¬ (agg = "inverters")) (fresh : Bool) :
    ∀ (vals s s' : Dict), vals.foldlM (seriesStep data ukey field agg fresh) s = some s' →
      ∀ e n, lookup s agg = some (.obj e) → lookup e "value" = some (.num n) →
        lookup s' agg = some (.obj (dictSet e "value" (.num (n + sumJ vals)))) := by
  intro vals
  induction vals with
  | nil =>
      intro s s' h e n he hev
      injection h with h
      subst h
      rw [he, dictSet_self e "value" _ (by rw [hev]; norm_num [sumJ])]
  | cons jw rest ih =>
      intro s s' h e n he hev
      obtain ⟨j, w⟩ := jw
      rw [List.foldlM_cons] at h
      cases hstep : seriesStep data ukey field agg fresh s (j, w) with
      | none => rw [hstep] at h; simp at h
      | some s1 =>
          rw [hstep] at h
          simp only [Option.bind_eq_bind, Option.some_bind] at h
          have key : ∃ z : Int, w = .num z ∧
              lookup s1 agg = some (.obj (dictSet e "value" (.num (n + z)))) := by
            cases fresh
            case false =>
              obtain ⟨us, u, m, entry, e2, n2, z, hus, hu, hm, hmj, he2, hev2, hw, hs1⟩ :=
                seriesStep_existing_elim data ukey field agg hagg s j w s1 hstep
              rw [he] at he2
              injection he2 with he2
              injection he2 with he2
              subst he2
              rw [hev] at hev2
              injection hev2 with hev2
              injection hev2 with hev2
              subst hs1
              refine ⟨z, hw, ?_⟩
              rw [lookup_dictSet, if_pos rfl, hev2]
            case true =>
              obtain ⟨us, u, m, e2, n2, z, hus, hu, hm, he2, hev2, hw, hs1⟩ :=
                seriesStep_fresh_elim data ukey field agg hagg s j w s1 hstep
              rw [he] at he2
              injection he2 with he2
              injection he2 with he2
              subst he2
              rw [hev] at hev2
              injection hev2 with hev2
              injection hev2 with hev2
              subst hs1
              refine ⟨z, hw, ?_⟩
              rw [lookup_dictSet, if_pos rfl, hev2]
          obtain ⟨z, hw, hs1agg⟩ := key
          have hval : lookup (dictSet e "value" (.num (n + z))) "value"
              = some (.num (n + z)) := by
            rw [lookup_dictSet, if_pos rfl]
          have := ih s1 s' h (dictSet e "value" (.num (n + z))) (n + z) hs1agg hval
          rw [this, dictSet_dictSet]
          subst hw
          have : n + z + sumJ rest = n + sumJ ((j, JVal.num z) :: rest) := by
            simp [sumJ]
            omega
          rw [this]

theorem seriesFold_existing_sets (data : JVal) (ukey field agg : String)
    (hagg : ¬ (agg = "inverters")) :
    ∀ (vals s s' : Dict), vals.foldlM (seriesStep data ukey field agg false) s = some s' →
      (keys vals).Nodup →
      ∀ iv ∈ vals, ∃ us u, getKey data ukey = some us ∧ getKey us "Unit" = some u ∧
        invField s' iv.1 field = some (.obj [("value", iv.2), ("unit", u)]) := by
  intro vals
  induction vals with
  | nil =>
      intro s s' _ _ iv hiv
      exact absurd hiv (List.not_mem_nil _)
  | cons jw rest ih =>
      intro s s' h hnd iv hiv
      obtain ⟨j, w⟩ := jw
      rw [keys_cons, List.nodup_cons] at hnd
      rw [List.foldlM_cons] at h
      cases hstep : seriesStep data ukey field agg false s (j, w) with
      | none => rw [hstep] at h; simp at h
      | some s1 =>
          rw [hstep] at h
          simp only [Option.bind_eq_bind, Option.some_bind] at h
          rcases List.mem_cons.mp hiv with heq | hmem
          · subst heq
            obtain ⟨us, u, m, entry, e, n, z, hus, hu, hm, hmj, he, hev, hw, hs1⟩ :=
              seriesStep_existing_elim data ukey field agg hagg s j w s1 hstep
            refine ⟨us, u, hus, hu, ?_⟩
            rw [seriesFold_preserves_invField data ukey field agg hagg false j field
              rest s1 s' h hnd.1]
            subst hs1
            simp [invField, lookup_dictSet, hagg]
          · exact ih s1 s' h hnd.2 iv hmem

theorem seriesFold_fresh_sets (data : JVal) (ukey field agg : String)
    (hagg : ¬ (agg = "inverters")) :
    ∀ (vals s s' : Dict), vals.foldlM (seriesStep data ukey field agg true) s = some s' →
      (keys vals).Nodup →
      ∀ iv ∈ vals, ∃ us u, getKey data ukey = some us ∧ getKey us "Unit" = some u ∧
        invField s' iv.1 field = some (.obj [("value", iv.2), ("unit", u)]) := by
  intro vals
  induction vals with
  | nil =>
      intro s s' _ _ iv hiv
      exact absurd hiv (List.not_mem_nil _)
  | cons jw rest ih =>
      intro s s' h hnd iv hiv
      obtain ⟨j, w⟩ := jw
      rw [keys_cons, List.nodup_cons] at hnd
      rw [List.foldlM_cons] at h
      cases hstep : seriesStep data ukey field agg true s (j, w) with
      | none => rw [hstep] at h; simp at h
      | some s1 =>
          rw [hstep] at h
          simp only [Option.bind_eq_bind, Option.some_bind] at h
          rcases List.mem_cons.mp hiv with heq | hmem
          · subst heq
            obtain ⟨us, u, m, e, n, z, hus, hu, hm, he, hev, hw, hs1⟩ :=
              seriesStep_fresh_elim data ukey field agg hagg s j w s1 hstep
            refine ⟨us, u, hus, hu, ?_⟩
            rw [seriesFold_preserves_invField data ukey field agg hagg true j field
              rest s1 s' h hnd.1]
            subst hs1
            simp [invField, lookup_dictSet, hagg, lookup]
          · exact ih s1 s' h hnd.2 iv hmem

theorem seriesFold_existing_fails (data : JVal) (ukey field agg : String)
    (hagg : ¬ (agg = "inverters")) (i : String) :
    ∀ (vals s : Dict), invHasEntry s i = false → i ∈ keys vals →
      vals.foldlM (seriesStep data ukey field agg false) s = none := by
  intro vals
  induction vals with
  | nil =>
      intro s _ hmem
      exact absurd hmem (List.not_mem_nil _)
  | cons jw rest ih =>
      intro s hent hmem
      obtain ⟨j, w⟩ := jw
      rw [List.foldlM_cons]
      cases hstep : seriesStep data ukey field agg false s (j, w) with
      | none => rfl
      | some s1 =>
          obtain ⟨us, u, m, entry, e, n, z, hus, hu, hm, hmj, he, hev, hw, hs1⟩ :=
            seriesStep_existing_elim data ukey field agg hagg s j w s1 hstep
          have hji : ¬ (j = i) := by
            intro hh
            subst hh
            simp only [invHasEntry, hm] at hent
            rw [hmj] at hent
            simp at hent
          have hmem' : i ∈ keys rest := by
            rw [keys_cons, List.mem_cons] at hmem
            rcases hmem with hh | hh
            · exact absurd hh.symm hji
            · exact hh
          have hent1 : invHasEntry s1 i = false := by
            simp only [invHasEntry, hm] at hent
            subst hs1
            simp only [invHasEntry]
            rw [lookup_dictSet, if_neg (fun hh : agg = "inverters" => hagg hh),
              lookup_dictSet, if_pos rfl]
            cases hmi : lookup m i with
            | none => simp [lookup_dictSet, hji, hmi]
            | some x =>
                rw [hmi] at hent
                cases x <;> simp_all [lookup_dictSet, hji]
          simp only [Option.bind_eq_bind, Option.some_bind]
          exact ih s1 hent1 hmem'

theorem seriesStep_existing_succeeds (data : JVal) (ukey field agg : String)
    (hagg : ¬ (agg = "inverters")) (s : Dict) (j : String) (z : Int) (us u : JVal)
    (hus : getKey data ukey = some us) (huu : getKey us "Unit" = some u)
    (m entry e : Dict) (n : Int)
    (hm : lookup s "inverters" = some (.obj m))
    (hmj : lookup m j = some (.obj entry))
    (he : lookup s agg = some (.obj e))
    (hev : lookup e "value" = some (.num n)) :
    seriesStep data ukey field agg false s (j, .num z)
      = some (dictSet (dictSet s "inverters"
          (.obj (dictSet m j (.obj (dictSet entry field
            (.obj [("value", .num z), ("unit", u)]))))))
        agg (.obj (dictSet e "value" (.num (n + z))))) := by
  simp only [seriesStep, hus, huu, Option.bind_eq_bind, Option.some_bind,
    Bool.false_eq_true, if_false, setInverterExisting, hm, hmj, addToAgg]
  rw [lookup_dictSet, if_neg (fun hh : "inverters" = agg => hagg hh.symm), he]
  simp only [hev, jAdd, Option.bind_eq_bind, Option.some_bind, Option.pure_def]

theorem seriesStep_fresh_succeeds (data : JVal) (ukey field agg : String)
    (hagg : ¬ (agg = "inverters")) (s : Dict) (j : String) (z : Int) (us u : JVal)
    (hus : getKey data ukey = some us) (huu : getKey us "Unit" = some u)
    (m e : Dict) (n : Int)
    (hm : lookup s "inverters" = some (.obj m))
    (he : lookup s agg = some (.obj e))
    (hev : lookup e "value" = some (.num n)) :
    seriesStep data ukey field agg true s (j, .num z)
      = some (dictSet (dictSet s "inverters"
          (.obj (dictSet m j (.obj [(field, .obj [("value", .num z), ("unit", u)])]))))
        agg (.obj (dictSet e "value" (.num (n + z))))) := by
  simp only [seriesStep, hus, huu, Option.bind_eq_bind, Option.some_bind,
    if_true, setInverterFresh, hm, addToAgg]
  rw [lookup_dictSet, if_neg (fun hh : "inverters" = agg => hagg hh.symm), he]
  simp only [hev, jAdd, Option.bind_eq_bind, Option.some_bind, Option.pure_def]

theorem seriesFold_existing_succeeds (data : JVal) (ukey field agg : String)
    (hagg : ¬ (agg = "inverters")) (us u : JVal)
    (hus : getKey data ukey = some us) (huu : getKey us "Unit" = some u) :
    ∀ (vals s : Dict),
      (∀ i ∈ keys vals, invHasEntry s i = true) →
      (∀ q ∈ vals, ∃ z : Int, q.2 = .num z) →
      (∃ e n, lookup s agg = some (.obj e) ∧ lookup e "value" = some (.num n)) →
      ∃ s', vals.foldlM (seriesStep data ukey field agg false) s = some s' := by
  intro vals
  induction vals with
  | nil => intro s _ _ _; exact ⟨s, rfl⟩
  | cons jw rest ih =>
      intro s hent hnum haggsh
      obtain ⟨j, w⟩ := jw
      obtain ⟨e, n, he, hev⟩ := haggsh
      obtain ⟨z, hw⟩ := hnum (j, w) (List.mem_cons_self _ _)
      have hj := hent j (by simp)
      cases hm : lookup s "inverters" with
      | none =>
          simp only [invHasEntry, hm] at hj
          exact Bool.noConfusion hj
      | some mv =>
      cases mv <;> simp only [invHasEntry, hm] at hj <;> try exact Bool.noConfusion hj
      case obj m =>
      cases hmj : lookup m j with
      | none => rw [hmj] at hj; exact Bool.noConfusion hj
      | some entv =>
      cases entv <;> rw [hmj] at hj <;> try exact Bool.noConfusion hj
      case obj entry =>
      subst hw
      have hstep := seriesStep_existing_succeeds data ukey field agg hagg s j z us u
        hus huu m entry e n hm hmj he hev
      have hent1 : ∀ i ∈ keys rest, invHasEntry
          (dictSet (dictSet s "inverters"
            (.obj (dictSet m j (.obj (dictSet entry field
              (.obj [("value", .num z), ("unit", u)]))))))
          agg (.obj (dictSet e "value" (.num (n + z))))) i = true := by
        intro i hi
        simp only [invHasEntry]
        rw [lookup_dictSet, if_neg (fun hh : agg = "inverters" => hagg hh),
          lookup_dictSet, if_pos rfl]
        by_cases hji : j = i
        · subst hji
          simp [lookup_dictSet]
        · have hit := hent i (List.mem_cons_of_mem _ hi)
          simp only [invHasEntry, hm] at hit
          cases hmi : lookup m i with
          | none => rw [hmi] at hit; exact Bool.noConfusion hit
          | some xv =>
              cases xv <;> rw [hmi] at hit <;> try exact Bool.noConfusion hit
              all_goals simp [lookup_dictSet, hji, hmi]
      have haggsh1 : ∃ e2 n2,
          lookup (dictSet (dictSet s "inverters"
            (.obj (dictSet m j (.obj (dictSet entry field
              (.obj [("value", .num z), ("unit", u)]))))))
          agg (.obj (dictSet e "value" (.num (n + z))))) agg = some (.obj e2)
          ∧ lookup e2 "value" = some (.num n2) := by
        refine ⟨dictSet e "value" (.num (n + z)), n + z, ?_, ?_⟩
        · rw [lookup_dictSet, if_pos rfl]
        · rw [lookup_dictSet, if_pos rfl]
      obtain ⟨s', hs'⟩ := ih _ hent1
        (fun q hq => hnum q (List.mem_cons_of_mem _ hq)) haggsh1
      refine ⟨s', ?_⟩
      rw [List.foldlM_cons, hstep]
      simpa using hs'

theorem seriesFold_fresh_succeeds (data : JVal) (ukey field agg : String)
    (hagg : ¬ (agg = "inverters")) (us u : JVal)
    (hus : getKey data ukey = some us) (huu : getKey us "Unit" = some u) :
    ∀ (vals s : Dict),
      (∃ m, lookup s "inverters" = some (.obj m)) →
      (∀ q ∈ vals, ∃ z : Int, q.2 = .num z) →
      (∃ e n, lookup s agg = some (.obj e) ∧ lookup e "value" = some (.num n)) →
      ∃ s', vals.foldlM (seriesStep data ukey field agg true) s = some s' := by
  intro vals
  induction vals with
  | nil => intro s _ _ _; exact ⟨s, rfl⟩
  | cons jw rest ih =>
      intro s hinv hnum haggsh
      obtain ⟨j, w⟩ := jw
      obtain ⟨e, n, he, hev⟩ := haggsh
      obtain ⟨m, hm⟩ := hinv
      obtain ⟨z, hw⟩ := hnum (j, w) (List.mem_cons_self _ _)
      subst hw
      have hstep := seriesStep_fresh_succeeds data ukey field agg hagg s j z us u
        hus huu m e n hm he hev
      have hinv1 : ∃ m2, lookup (dictSet (dictSet s "inverters"
            (.obj (dictSet m j (.obj [(field, .obj [("value", .num z), ("unit", u)])]))))
          agg (.obj (dictSet e "value" (.num (n + z))))) "inverters"
          = some (.obj m2) := by
        refine ⟨dictSet m j (.obj [(field, .obj [("value", .num z), ("unit", u)])]), ?_⟩
        rw [lookup_dictSet, if_neg (fun hh : agg = "inverters" => hagg hh),
          lookup_dictSet, if_pos rfl]
      have haggsh1 : ∃ e2 n2,
          lookup (dictSet (dictSet s "inverters"
            (.obj (dictSet m j (.obj [(field, .obj [("value", .num z), ("unit", u)])]))))
          agg (.obj (dictSet e "value" (.num (n + z))))) agg = some (.obj e2)
          ∧ lookup e2 "value" = some (.num n2) := by
        refine ⟨dictSet e "value" (.num (n + z)), n + z, ?_, ?_⟩
        · rw [lookup_dictSet, if_pos rfl]
        · rw [lookup_dictSet, if_pos rfl]
      obtain ⟨s', hs'⟩ := ih _ hinv1
        (fun q hq => hnum q (List.mem_cons_of_mem _ hq)) haggsh1
      refine ⟨s', ?_⟩
      rw [List.foldlM_cons, hstep]
      simpa using hs'

theorem mkInvPayload_day (d t y p : Option (String × List (String × Int))) :
    getKey (mkInvPayload d t y p) "DAY_ENERGY"
      = d.map (fun uv => mkSeries uv.1 uv.2) := by
  cases d <;> cases t <;> cases y <;> cases p <;>
    simp [mkInvPayload, optSeriesEntry, getKey, lookup]

theorem mkInvPayload_total (d t y p : Option (String × List (String × Int))) :
    getKey (mkInvPayload d t y p) "TOTAL_ENERGY"
      = t.map (fun uv => mkSeries uv.1 uv.2) := by
  cases d <;> cases t <;> cases y <;> cases p <;>
    simp [mkInvPayload, optSeriesEntry, getKey, lookup]

theorem mkInvPayload_year (d t y p : Option (String × List (String × Int))) :
    getKey (mkInvPayload d t y p) "YEAR_ENERGY"
      = y.map (fun uv => mkSeries uv.1 uv.2) := by
  cases d <;> cases t <;> cases y <;> cases p <;>
    simp [mkInvPayload, optSeriesEntry, getKey, lookup]

theorem mkInvPayload_pac (d t y p : Option (String × List (String × Int))) :
    getKey (mkInvPayload d t y p) "PAC"
      = p.map (fun uv => mkSeries uv.1 uv.2) := by
  cases d <;> cases t <;> cases y <;> cases p <;>
    simp [mkInvPayload, optSeriesEntry, getKey, lookup]

theorem keys_numVals (vals : List (String × Int)) :
    keys (numVals vals) = vals.map Prod.fst := by
  simp [keys, numVals]

theorem sumJ_numVals (vals : List (String × Int)) :
    sumJ (numVals vals) = sumVals vals := by
  simp only [sumJ, numVals, sumVals, List.map_map]
  congr 1

theorem runSeries_absent (data : JVal) (skey ukey field agg : String) (fresh : Bool)
    (s : Dict) (hs : getKey data skey = none) :
    runSeries data skey ukey field agg fresh s = some s := by
  simp [runSeries, hs]

theorem runSeries_eq_fold (data : JVal) (skey ukey field agg : String) (fresh : Bool)
    (s : Dict) (series : JVal) (vals : Dict)
    (hs : getKey data skey = some series)
    (hv : getKey series "Values" = some (.obj vals)) :
    runSeries data skey ukey field agg fresh s
      = vals.foldlM (seriesStep data ukey field agg fresh) s := by
  simp [runSeries, hs, hv]

theorem invSeries_phase_existing (data : JVal) (skey ukey field agg : String)
    (hagg : ¬ (agg = "inverters")) (s : Dict) (created : List String)
    (hinv : ∀ i, invHasEntry s i = decide (i ∈ created))
    (opt : Option (String × List (String × Int)))
    (hser : getKey data skey = opt.map (fun uv => mkSeries uv.1 uv.2))
    (hunit : opt.isSome → ∃ us uu, getKey data ukey = some us
        ∧ getKey us "Unit" = some uu)
    (hsub : ∀ i ∈ seriesKeys opt, i ∈ created)
    (e : Dict) (n : Int) (he : lookup s agg = some (.obj e))
    (hev : lookup e "value" = some (.num n)) :
    ∃ s', runSeries data skey ukey field agg false s = some s'
      ∧ (∀ i, invHasEntry s' i = decide (i ∈ created))
      ∧ lookup s' agg = some (.obj (dictSet e "value" (.num (n + sumValsOpt opt))))
      ∧ (∀ k, ¬ (k = agg) → ¬ (k = "inverters") → lookup s' k = lookup s k)
      ∧ (∀ i f, ¬ (f = field) → invField s' i f = invField s i f)
      ∧ ((seriesKeys opt).Nodup → ∀ u vals, opt = some (u, vals) →
           ∀ iv ∈ vals, ∃ us uu, getKey data ukey = some us
             ∧ getKey us "Unit" = some uu
             ∧ invField s' iv.1 field = some (.obj [("value", .num iv.2), ("unit", uu)])) := by
  cases opt with
  | none =>
      refine ⟨s, runSeries_absent data skey ukey field agg false s (by simpa using hser),
        hinv, ?_, fun k _ _ => rfl, fun i f _ => rfl,
        fun _ u vals hco => Option.noConfusion hco⟩
      rw [he]
      congr 2
      rw [dictSet_self]
      rw [hev]
      congr 2
      simp [sumValsOpt]
  | some uv =>
      obtain ⟨u, vals⟩ := uv
      obtain ⟨us, uu, hus, huu⟩ := hunit (by simp)
      have hs : getKey data skey = some (mkSeries u vals) := by simpa using hser
      have hv : getKey (mkSeries u vals) "Values" = some (.obj (numVals vals)) := rfl
      have hrun := runSeries_eq_fold data skey ukey field agg false s
        (mkSeries u vals) (numVals vals) hs hv
      have hent : ∀ i ∈ keys (numVals vals), invHasEntry s i = true := by
        intro i hi
        rw [keys_numVals] at hi
        rw [hinv i]
        simpa using hsub i (by simpa [seriesKeys] using hi)
      have hnum : ∀ q ∈ numVals vals, ∃ z : Int, q.2 = .num z := by
        intro q hq
        simp [numVals] at hq
        obtain ⟨a, b, _, hab⟩ := hq
        exact ⟨b, by rw [← hab]⟩
      obtain ⟨s', hfold⟩ := seriesFold_existing_succeeds data ukey field agg hagg us uu
        hus huu (numVals vals) s hent hnum ⟨e, n, he, hev⟩
      refine ⟨s', by rw [hrun]; exact hfold, ?_, ?_, ?_, ?_, ?_⟩
      · intro i
        rw [seriesFold_existing_hasEntry data ukey field agg hagg i (numVals vals) s s' hfold]
        exact hinv i
      · have := seriesFold_agg data ukey field agg hagg false (numVals vals) s s' hfold
          e n he hev
        rw [this, sumJ_numVals]
        rfl
      · intro k hk1 hk2
        exact seriesFold_preserves_other_key data ukey field agg hagg false k hk1 hk2
          (numVals vals) s s' hfold
      · intro i f hf
        exact seriesFold_preserves_other_field data ukey field agg hagg i f hf
          (numVals vals) s s' hfold
      · intro hnd u' vals' hopt iv hiv
        injection hopt with hopt
        injection hopt with h1 h2
        subst h1
        subst h2
        have hnd' : (keys (numVals vals)).Nodup := by
          rw [keys_numVals]
          simpa [seriesKeys] using hnd
        have hmem : (iv.1, JVal.num iv.2) ∈ numVals vals := by
          simp [numVals]
          exact hiv
        obtain ⟨us2, uu2, hus2, huu2, hset⟩ :=
          seriesFold_existing_sets data ukey field agg hagg (numVals vals) s s' hfold
            hnd' (iv.1, .num iv.2) hmem
        exact ⟨us2, uu2, hus2, huu2, hset⟩

theorem invSeries_phase_fresh (data : JVal) (skey ukey field agg : String)
    (hagg : ¬ (agg = "inverters")) (s : Dict)
    (hinv0 : ∀ i, invHasEntry s i = false)
    (hm0 : ∃ m, lookup s "inverters" = some (.obj m))
    (opt : Option (String × List (String × Int)))
    (hser : getKey data skey = opt.map (fun uv => mkSeries uv.1 uv.2))
    (hunit : opt.isSome → ∃ us uu, getKey data ukey = some us
        ∧ getKey us "Unit" = some uu)
    (e : Dict) (n : Int) (he : lookup s agg = some (.obj e))
    (hev : lookup e "value" = some (.num n)) :
    ∃ s', runSeries data skey ukey field agg true s = some s'
      ∧ (∀ i, invHasEntry s' i = decide (i ∈ seriesKeys opt))
      ∧ lookup s' agg = some (.obj (dictSet e "value" (.num (n + sumValsOpt opt))))
      ∧ (∀ k, ¬ (k = agg) → ¬ (k = "inverters") → lookup s' k = lookup s k)
      ∧ ((seriesKeys opt).Nodup → ∀ u vals, opt = some (u, vals) →
           ∀ iv ∈ vals, ∃ us uu, getKey data ukey = some us
             ∧ getKey us "Unit" = some uu
             ∧ invField s' iv.1 field = some (.obj [("value", .num iv.2), ("unit", uu)])) := by
  cases opt with
  | none =>
      refine ⟨s, runSeries_absent data skey ukey field agg true s (by simpa using hser),
        ?_, ?_, fun k _ _ => rfl,
        fun _ u vals hco => Option.noConfusion hco⟩
      · intro i
        rw [hinv0 i]
        simp [seriesKeys]
      · rw [he]
        congr 2
        rw [dictSet_self]
        rw [hev]
        congr 2
        simp [sumValsOpt]
  | some uv =>
      obtain ⟨u, vals⟩ := uv
      obtain ⟨us, uu, hus, huu⟩ := hunit (by simp)
      have hs : getKey data skey = some (mkSeries u vals) := by simpa using hser
      have hv : getKey (mkSeries u vals) "Values" = some (.obj (numVals vals)) := rfl
      have hrun := runSeries_eq_fold data skey ukey field agg true s
        (mkSeries u vals) (numVals vals) hs hv
      have hnum : ∀ q ∈ numVals vals, ∃ z : Int, q.2 = .num z := by
        intro q hq
        simp [numVals] at hq
        obtain ⟨a, b, _, hab⟩ := hq
        exact ⟨b, by rw [← hab]⟩
      obtain ⟨s', hfold⟩ := seriesFold_fresh_succeeds data ukey field agg hagg us uu
        hus huu (numVals vals) s hm0 hnum ⟨e, n, he, hev⟩
      refine ⟨s', by rw [hrun]; exact hfold, ?_, ?_, ?_, ?_⟩
      · intro i
        rw [seriesFold_fresh_hasEntry data ukey field agg hagg i (numVals vals) s s' hfold,
          hinv0 i, keys_numVals]
        simp [seriesKeys]
      · have := seriesFold_agg data ukey field agg hagg true (numVals vals) s s' hfold
          e n he hev
        rw [this, sumJ_numVals]
        rfl
      · intro k hk1 hk2
        exact seriesFold_preserves_other_key data ukey field agg hagg true k hk1 hk2
          (numVals vals) s s' hfold
      · intro hnd u' vals' hopt iv hiv
        injection hopt with hopt
        injection hopt with h1 h2
        subst h1
        subst h2
        have hnd' : (keys (numVals vals)).Nodup := by
          rw [keys_numVals]
          simpa [seriesKeys] using hnd
        have hmem : (iv.1, JVal.num iv.2) ∈ numVals vals := by
          simp [numVals]
          exact hiv
        exact seriesFold_fresh_sets data ukey field agg hagg (numVals vals) s s' hfold
          hnd' (iv.1, .num iv.2) hmem

/-- C4: for a system-inverter payload with well-formed optional series
(numeric values, unit present, later series' inverter ids among
`DAY_ENERGY`'s, unit-source series present), the normalizer succeeds; for
each present series it writes every per-inverter reading into
`inverters[id].<field>` and accumulates the sum of the series' values
into the matching top-level aggregate, which was pre-initialized to zero
(`Wh` resp. `W` unit). -/
theorem system_inverter_series_spec (sensor : Dict)
    (day total year pac : Option (String × List (String × Int)))
    (hnd : (seriesKeys day).Nodup) (hnt : (seriesKeys total).Nodup)
    (hny : (seriesKeys year).Nodup) (hnp : (seriesKeys pac).Nodup)
    (hst : ∀ i ∈ seriesKeys total, i ∈ seriesKeys day)
    (hsy : ∀ i ∈ seriesKeys year, i ∈ seriesKeys day)
    (hsp : ∀ i ∈ seriesKeys pac, i ∈ seriesKeys day)
    (hyt : year.isSome = true → total.isSome = true)
    (hpt : pac.isSome = true → total.isSome = true) :
    ∃ s, _system_inverter_data sensor (mkInvPayload day total year pac) = some s
      ∧ (∀ u vals, day = some (u, vals) →
           (∀ iv ∈ vals, invField s iv.1 "energy_day"
              = some (.obj [("value", .num iv.2), ("unit", .str u)]))
           ∧ lookup s "energy_day"
              = some (.obj [("value", .num (sumVals vals)), ("unit", .str "Wh")]))
      ∧ (∀ u vals, total = some (u, vals) →
           (∀ iv ∈ vals, invField s iv.1 "energy_total"
              = some (.obj [("value", .num iv.2), ("unit", .str u)]))
           ∧ lookup s "energy_total"
              = some (.obj [("value", .num (sumVals vals)), ("unit", .str "Wh")]))
      ∧ (∀ u vals, year = some (u, vals) →
           (∀ iv ∈ vals, ∃ r, invField s iv.1 "energy_year" = some r
              ∧ getKey r "value" = some (.num iv.2))
           ∧ lookup s "energy_year"
              = some (.obj [("value", .num (sumVals vals)), ("unit", .str "Wh")]))
      ∧ (∀ u vals, pac = some (u, vals) →
           (∀ iv ∈ vals, ∃ r, invField s iv.1 "power_ac" = some r
              ∧ getKey r "value" = some (.num iv.2))
           ∧ lookup s "power_ac"
              = some (.obj [("value", .num (sumVals vals)), ("unit", .str "W")])) := by
  set s0 := dictSet (dictSet (dictSet (dictSet (dictSet sensor
      "energy_day" (.obj [("value", .num 0), ("unit", .str "Wh")]))
      "energy_total" (.obj [("value", .num 0), ("unit", .str "Wh")]))
      "energy_year" (.obj [("value", .num 0), ("unit", .str "Wh")]))
      "power_ac" (.obj [("value", .num 0), ("unit", .str "W")]))
      "inverters" (.obj []) with hs0
  have h0inv : lookup s0 "inverters" = some (.obj []) := by
    rw [hs0, lookup_dictSet, if_pos rfl]
  have h0i : ∀ i, invHasEntry s0 i = false := by
    intro i
    simp [invHasEntry, h0inv, lookup]
  have h0day : lookup s0 "energy_day"
      = some (.obj [("value", .num 0), ("unit", .str "Wh")]) := by
    rw [hs0]; simp [lookup_dictSet]
  have h0total : lookup s0 "energy_total"
      = some (.obj [("value", .num 0), ("unit", .str "Wh")]) := by
    rw [hs0]; simp [lookup_dictSet]
  have h0year : lookup s0 "energy_year"
      = some (.obj [("value", .num 0), ("unit", .str "Wh")]) := by
    rw [hs0]; simp [lookup_dictSet]
  have h0pac : lookup s0 "power_ac"
      = some (.obj [("value", .num 0), ("unit", .str "W")]) := by
    rw [hs0]; simp [lookup_dictSet]
  have hunit_day : day.isSome = true → ∃ us uu,
      getKey (mkInvPayload day total year pac) "DAY_ENERGY" = some us
        ∧ getKey us "Unit" = some uu := by
    intro hd
    cases day with
    | none => simp at hd
    | some uv =>
        exact ⟨mkSeries uv.1 uv.2, .str uv.1, by simp [mkInvPayload_day], rfl⟩
  have hunit_total : total.isSome = true → ∃ us uu,
      getKey (mkInvPayload day total year pac) "TOTAL_ENERGY" = some us
        ∧ getKey us "Unit" = some uu := by
    intro ht
    cases total with
    | none => simp at ht
    | some uv =>
        exact ⟨mkSeries uv.1 uv.2, .str uv.1, by simp [mkInvPayload_total], rfl⟩
  obtain ⟨s1, hrun1, hi1, hagg1, hpres1, hsets1⟩ :=
    invSeries_phase_fresh (mkInvPayload day total year pac)
      "DAY_ENERGY" "DAY_ENERGY" "energy_day" "energy_day" (by decide)
      s0 h0i ⟨[], h0inv⟩ day (mkInvPayload_day day total year pac) hunit_day
      [("value", .num 0), ("unit", .str "Wh")] 0 h0day rfl
  have h1total : lookup s1 "energy_total"
      = some (.obj [("value", .num 0), ("unit", .str "Wh")]) := by
    rw [hpres1 "energy_total" (by decide) (by decide)]
    exact h0total
  obtain ⟨s2, hrun2, hi2, hagg2, hpres2, hpf2, hsets2⟩ :=
    invSeries_phase_existing (mkInvPayload day total year pac)
      "TOTAL_ENERGY" "TOTAL_ENERGY" "energy_total" "energy_total" (by decide)
      s1 (seriesKeys day) hi1 total (mkInvPayload_total day total year pac)
      hunit_total hst [("value", .num 0), ("unit", .str "Wh")] 0 h1total rfl
  have hunit_year : year.isSome = true → ∃ us uu,
      getKey (mkInvPayload day total year pac) "TOTAL_ENERGY" = some us
        ∧ getKey us "Unit" = some uu := fun hy => hunit_total (hyt hy)
  have h2year : lookup s2 "energy_year"
      = some (.obj [("value", .num 0), ("unit", .str "Wh")]) := by
    rw [hpres2 "energy_year" (by decide) (by decide),
      hpres1 "energy_year" (by decide) (by decide)]
    exact h0year
  obtain ⟨s3, hrun3, hi3, hagg3, hpres3, hpf3, hsets3⟩ :=
    invSeries_phase_existing (mkInvPayload day total year pac)
      "YEAR_ENERGY" "TOTAL_ENERGY" "energy_year" "energy_year" (by decide)
      s2 (seriesKeys day) hi2 year (mkInvPayload_year day total year pac)
      hunit_year hsy [("value", .num 0), ("unit", .str "Wh")] 0 h2year rfl
  have hunit_pac : pac.isSome = true → ∃ us uu,
      getKey (mkInvPayload day total year pac) "TOTAL_ENERGY" = some us
        ∧ getKey us "Unit" = some uu := fun hp => hunit_total (hpt hp)
  have h3pac : lookup s3 "power_ac"
      = some (.obj [("value", .num 0), ("unit", .str "W")]) := by
    rw [hpres3 "power_ac" (by decide) (by decide),
      hpres2 "power_ac" (by decide) (by decide),
      hpres1 "power_ac" (by decide) (by decide)]
    exact h0pac
  obtain ⟨s4, hrun4, hi4, hagg4, hpres4, hpf4, hsets4⟩ :=
    invSeries_phase_existing (mkInvPayload day total year pac)
      "PAC" "TOTAL_ENERGY" "power_ac" "power_ac" (by decide)
      s3 (seriesKeys day) hi3 pac (mkInvPayload_pac day total year pac)
      hunit_pac hsp [("value", .num 0), ("unit", .str "W")] 0 h3pac rfl
  refine ⟨s4, ?_, ?_, ?_, ?_, ?_⟩
  · simp only [_system_inverter_data, Option.bind_eq_bind]
    rw [← hs0, hrun1]
    simp only [Option.some_bind]
    rw [hrun2]
    simp only [Option.some_bind]
    rw [hrun3]
    simp only [Option.some_bind]
    rw [hrun4]
    rfl
  · intro u vals hday
    constructor
    · intro iv hiv
      obtain ⟨us, uu, hus, huu, hset⟩ := hsets1 hnd u vals hday iv hiv
      rw [mkInvPayload_day day total year pac, hday] at hus
      simp only [Option.map_some', Option.some.injEq] at hus
      subst hus
      have huu2 : getKey (mkSeries u vals) "Unit" = some (JVal.str u) := rfl
      rw [huu2, Option.some.injEq] at huu
      subst huu
      rw [hpf4 iv.1 "energy_day" (by decide), hpf3 iv.1 "energy_day" (by decide),
        hpf2 iv.1 "energy_day" (by decide)]
      exact hset
    · rw [hpres4 "energy_day" (by decide) (by decide),
        hpres3 "energy_day" (by decide) (by decide),
        hpres2 "energy_day" (by decide) (by decide),
        hagg1, hday]
      simp [dictSet, sumValsOpt]
  · intro u vals htotal
    constructor
    · intro iv hiv
      obtain ⟨us, uu, hus, huu, hset⟩ := hsets2 hnt u vals htotal iv hiv
      rw [mkInvPayload_total day total year pac, htotal] at hus
      simp only [Option.map_some', Option.some.injEq] at hus
      subst hus
      have huu2 : getKey (mkSeries u vals) "Unit" = some (JVal.str u) := rfl
      rw [huu2, Option.some.injEq] at huu
      subst huu
      rw [hpf4 iv.1 "energy_total" (by decide), hpf3 iv.1 "energy_total" (by decide)]
      exact hset
    · rw [hpres4 "energy_total" (by decide) (by decide),
        hpres3 "energy_total" (by decide) (by decide),
        hagg2, htotal]
      simp [dictSet, sumValsOpt]
  · intro u vals hyear
    constructor
    · intro iv hiv
      obtain ⟨us, uu, hus, huu, hset⟩ := hsets3 hny u vals hyear iv hiv
      refine ⟨.obj [("value", .num iv.2), ("unit", uu)], ?_, rfl⟩
      rw [hpf4 iv.1 "energy_year" (by decide)]
      exact hset
    · rw [hpres4 "energy_year" (by decide) (by decide), hagg3, hyear]
      simp [dictSet, sumValsOpt]
  · intro u vals hpac
    constructor
    · intro iv hiv
      obtain ⟨us, uu, hus, huu, hset⟩ := hsets4 hnp u vals hpac iv hiv
      exact ⟨.obj [("value", .num iv.2), ("unit", uu)], hset, rfl⟩
    · rw [hagg4, hpac]
      simp [dictSet, sumValsOpt]

/-- Witness for C4 at the spec's example payload
`DAY_ENERGY = \x7bUnit Wh, Values \x7b1: 10, 2: 20\x7d\x7d`. -/
theorem system_inverter_series_spec_witness :
    ∃ s, _system_inverter_data []
        (mkInvPayload (some ("Wh", [("1", 10), ("2", 20)])) none none none) = some s
      ∧ (∀ iv ∈ [("1", (10 : Int)), ("2", 20)], invField s iv.1 "energy_day"
           = some (.obj [("value", .num iv.2), ("unit", .str "Wh")]))
      ∧ lookup s "energy_day"
           = some (.obj [("value", .num 30), ("unit", .str "Wh")]) := by
  obtain ⟨s, hs, hday, _, _, _⟩ := system_inverter_series_spec []
    (some ("Wh", [("1", 10), ("2", 20)])) none none none
    (by decide) (by decide) (by decide) (by decide)
    (by decide) (by decide) (by decide) (by simp) (by simp)
  obtain ⟨hper, haggr⟩ := hday "Wh" [("1", 10), ("2", 20)] rfl
  refine ⟨s, hs, hper, ?_⟩
  rw [haggr]
  norm_num [sumVals]

theorem runSeries_existing_hasEntry (data : JVal) (skey ukey field agg : String)
    (hagg : ¬ (agg = "inverters")) (i : String) (s s' : Dict)
    (h : runSeries data skey ukey field agg false s = some s') :
    invHasEntry s' i = invHasEntry s i := by
  simp only [runSeries] at h
  cases hd : getKey data skey with
  | none =>
      simp only [hd] at h
      injection h with h
      rw [h]
  | some series =>
      simp only [hd] at h
      cases hdv : getKey series "Values" with
      | none => rw [hdv] at h; exact Option.noConfusion h
      | some v =>
          rw [hdv] at h
          cases v <;> try exact Option.noConfusion h
          case obj vals =>
          exact seriesFold_existing_hasEntry data ukey field agg hagg i vals s s' h

theorem runSeries_preserves_field (data : JVal) (skey ukey field agg : String)
    (hagg : ¬ (agg = "inverters")) (i f : String) (hf : ¬ (f = field)) (s s' : Dict)
    (h : runSeries data skey ukey field agg false s = some s') :
    invField s' i f = invField s i f := by
  simp only [runSeries] at h
  cases hd : getKey data skey with
  | none =>
      simp only [hd] at h
      injection h with h
      rw [h]
  | some series =>
      simp only [hd] at h
      cases hdv : getKey series "Values" with
      | none => rw [hdv] at h; exact Option.noConfusion h
      | some v =>
          rw [hdv] at h
          cases v <;> try exact Option.noConfusion h
          case obj vals =>
          exact seriesFold_preserves_other_field data ukey field agg hagg i f hf vals s s' h

theorem runSeries_existing_none (data : JVal) (skey ukey field agg : String)
    (hagg : ¬ (agg = "inverters")) (i : String) (s : Dict) (series : JVal) (vals : Dict)
    (hs : getKey data skey = some series)
    (hv : getKey series "Values" = some (.obj vals))
    (hi : i ∈ keys vals) (h0 : invHasEntry s i = false) :
    runSeries data skey ukey field agg false s = none := by
  rw [runSeries_eq_fold data skey ukey field agg false s series vals hs hv]
  exact seriesFold_existing_fails data ukey field agg hagg i vals s h0 hi

/-- The four stages of `_system_inverter_data`, extracted from a
successful run. -/
theorem system_inverter_stages (sensor : Dict) (data : JVal) (s : Dict)
    (h : _system_inverter_data sensor data = some s) :
    ∃ s1 s2 s3,
      runSeries data "DAY_ENERGY" "DAY_ENERGY" "energy_day" "energy_day" true
        (dictSet (dictSet (dictSet (dictSet (dictSet sensor
          "energy_day" (.obj [("value", .num 0), ("unit", .str "Wh")]))
          "energy_total" (.obj [("value", .num 0), ("unit", .str "Wh")]))
          "energy_year" (.obj [("value", .num 0), ("unit", .str "Wh")]))
          "power_ac" (.obj [("value", .num 0), ("unit", .str "W")]))
          "inverters" (.obj [])) = some s1
      ∧ runSeries data "TOTAL_ENERGY" "TOTAL_ENERGY" "energy_total" "energy_total" false s1
          = some s2
      ∧ runSeries data "YEAR_ENERGY" "TOTAL_ENERGY" "energy_year" "energy_year" false s2
          = some s3
      ∧ runSeries data "PAC" "TOTAL_ENERGY" "power_ac" "power_ac" false s3 = some s := by
  simp only [_system_inverter_data, Option.bind_eq_bind] at h
  cases hr1 : runSeries data "DAY_ENERGY" "DAY_ENERGY" "energy_day" "energy_day" true
      (dictSet (dictSet (dictSet (dictSet (dictSet sensor
        "energy_day" (.obj [("value", .num 0), ("unit", .str "Wh")]))
        "energy_total" (.obj [("value", .num 0), ("unit", .str "Wh")]))
        "energy_year" (.obj [("value", .num 0), ("unit", .str "Wh")]))
        "power_ac" (.obj [("value", .num 0), ("unit", .str "W")]))
        "inverters" (.obj [])) with
  | none => rw [hr1] at h; simp at h
  | some s1 =>
  rw [hr1] at h
  simp only [Option.some_bind] at h
  cases hr2 : runSeries data "TOTAL_ENERGY" "TOTAL_ENERGY" "energy_total" "energy_total"
      false s1 with
  | none => rw [hr2] at h; simp at h
  | some s2 =>
  rw [hr2] at h
  simp only [Option.some_bind] at h
  cases hr3 : runSeries data "YEAR_ENERGY" "TOTAL_ENERGY" "energy_year" "energy_year"
      false s2 with
  | none => rw [hr3] at h; simp at h
  | some s3 =>
  rw [hr3] at h
  simp only [Option.some_bind] at h
  cases hr4 : runSeries data "PAC" "TOTAL_ENERGY" "power_ac" "power_ac" false s3 with
  | none => rw [hr4] at h; simp at h
  | some s4 =>
  rw [hr4] at h
  simp only [Option.some_bind, Option.pure_def, Option.some.injEq] at h
  subst h
  exact ⟨s1, s2, s3, rfl, hr2, hr3, hr4⟩

/-- C5: whenever the system-inverter normalizer succeeds, every
per-inverter `energy_year` reading produced from a present `YEAR_ENERGY`
series carries the unit read from `TOTAL_ENERGY.Unit` (not
`YEAR_ENERGY.Unit`), and likewise every `power_ac` reading produced from
a present `PAC` series carries `TOTAL_ENERGY.Unit` (not `PAC.Unit`). -/
theorem year_pac_unit_from_total (sensor : Dict) (data : JVal) (s : Dict)
    (h : _system_inverter_data sensor data = some s) :
    (∀ yseries yvals, getKey data "YEAR_ENERGY" = some yseries →
       getKey yseries "Values" = some (.obj yvals) → (keys yvals).Nodup →
       ∀ iv ∈ yvals, ∃ tseries tu,
         getKey data "TOTAL_ENERGY" = some tseries
           ∧ getKey tseries "Unit" = some tu
           ∧ invField s iv.1 "energy_year"
               = some (.obj [("value", iv.2), ("unit", tu)]))
  ∧ (∀ pseries pvals, getKey data "PAC" = some pseries →
       getKey pseries "Values" = some (.obj pvals) → (keys pvals).Nodup →
       ∀ iv ∈ pvals, ∃ tseries tu,
         getKey data "TOTAL_ENERGY" = some tseries
           ∧ getKey tseries "Unit" = some tu
           ∧ invField s iv.1 "power_ac"
               = some (.obj [("value", iv.2), ("unit", tu)])) := by
  obtain ⟨s1, s2, s3, hr1, hr2, hr3, hr4⟩ := system_inverter_stages sensor data s h
  constructor
  · intro yseries yvals hys hyv hnd iv hiv
    rw [runSeries_eq_fold data "YEAR_ENERGY" "TOTAL_ENERGY" "energy_year" "energy_year"
      false s2 yseries yvals hys hyv] at hr3
    obtain ⟨us, uu, hus, huu, hset⟩ :=
      seriesFold_existing_sets data "TOTAL_ENERGY" "energy_year" "energy_year"
        (by decide) yvals s2 s3 hr3 hnd iv hiv
    refine ⟨us, uu, hus, huu, ?_⟩
    rw [runSeries_preserves_field data "PAC" "TOTAL_ENERGY" "power_ac" "power_ac"
      (by decide) iv.1 "energy_year" (by decide) s3 s hr4]
    exact hset
  · intro pseries pvals hps hpv hnd iv hiv
    rw [runSeries_eq_fold data "PAC" "TOTAL_ENERGY" "power_ac" "power_ac"
      false s3 pseries pvals hps hpv] at hr4
    obtain ⟨us, uu, hus, huu, hset⟩ :=
      seriesFold_existing_sets data "TOTAL_ENERGY" "power_ac" "power_ac"
        (by decide) pvals s3 s hr4 hnd iv hiv
    exact ⟨us, uu, hus, huu, hset⟩

/-- Witness for C5: the `energy_year` reading of the concrete payload
carries `TOTAL_ENERGY`'s unit `T`, not `YEAR_ENERGY`'s unit `Y`. -/
theorem year_pac_unit_from_total_witness :
    ∃ s, _system_inverter_data [] invPayloadEx = some s
      ∧ invField s "1" "energy_year"
          = some (.obj [("value", .num 3), ("unit", .str "T")]) := by
  refine ⟨_, rfl, ?_⟩
  have h := (year_pac_unit_from_total [] invPayloadEx _ rfl).1
    (mkSeries "Y" [("1", 3)]) (numVals [("1", 3)]) rfl rfl (by decide)
    ("1", .num 3) (by simp [numVals])
  obtain ⟨ts, tu, h1, h2, h3⟩ := h
  have h1' : some (mkSeries "T" [("1", 2)]) = some ts := by
    rw [← h1]
    rfl
  injection h1' with h1'
  subst h1'
  have h2' : some (JVal.str "T") = some tu := by
    rw [← h2]
    rfl
  injection h2' with h2'
  subst h2'
  exact h3

theorem runSeries_fresh_missing (data : JVal) (ukey field agg : String)
    (hagg : ¬ (agg = "inverters")) (i : String) (s s1 : Dict)
    (h : runSeries data "DAY_ENERGY" ukey field agg true s = some s1)
    (h0 : invHasEntry s i = false) (hmiss : dayMissing data i = true) :
    invHasEntry s1 i = false := by
  simp only [runSeries] at h
  simp only [dayMissing] at hmiss
  cases hd : getKey data "DAY_ENERGY" with
  | none =>
      simp only [hd] at h
      injection h with h
      rw [h] at h0
      exact h0
  | some day =>
      simp only [hd] at h hmiss
      cases hdv : getKey day "Values" with
      | none => rw [hdv] at h; exact Option.noConfusion h
      | some v =>
          rw [hdv] at h
          rw [hdv] at hmiss
          cases v <;> try exact Option.noConfusion h
          case obj dv =>
          have hni : i ∉ keys dv := by simpa using hmiss
          rw [seriesFold_fresh_hasEntry data ukey field agg hagg i dv s s1 h, h0]
          simpa using hni

/-- C7: a system-inverter payload in which some later series
(`TOTAL_ENERGY`, `YEAR_ENERGY` or `PAC`) has an inverter id in its
`Values` that the `DAY_ENERGY` loop does not create (including every
payload where `DAY_ENERGY` is absent but a later series is present)
makes the normalizer raise a key error: only the `DAY_ENERGY` loop
creates `inverters[id]`, and the later loops index into it. -/
theorem later_series_unknown_id_raises (sensor : Dict) (data : JVal)
    (skey : String) (series : JVal) (vals : Dict) (i : String)
    (hsk : skey = "TOTAL_ENERGY" ∨ skey = "YEAR_ENERGY" ∨ skey = "PAC")
    (hs : getKey data skey = some series)
    (hv : getKey series "Values" = some (.obj vals))
    (hi : i ∈ keys vals)
    (hmiss : dayMissing data i = true) :
    _system_inverter_data sensor data = none := by
  simp only [_system_inverter_data, Option.bind_eq_bind]
  have h0i : invHasEntry (dictSet (dictSet (dictSet (dictSet (dictSet sensor
      "energy_day" (.obj [("value", .num 0), ("unit", .str "Wh")]))
      "energy_total" (.obj [("value", .num 0), ("unit", .str "Wh")]))
      "energy_year" (.obj [("value", .num 0), ("unit", .str "Wh")]))
      "power_ac" (.obj [("value", .num 0), ("unit", .str "W")]))
      "inverters" (.obj [])) i = false := by
    simp [invHasEntry, lookup_dictSet, lookup]
  cases hr1 : runSeries data "DAY_ENERGY" "DAY_ENERGY" "energy_day" "energy_day" true
      (dictSet (dictSet (dictSet (dictSet (dictSet sensor
        "energy_day" (.obj [("value", .num 0), ("unit", .str "Wh")]))
        "energy_total" (.obj [("value", .num 0), ("unit", .str "Wh")]))
        "energy_year" (.obj [("value", .num 0), ("unit", .str "Wh")]))
        "power_ac" (.obj [("value", .num 0), ("unit", .str "W")]))
        "inverters" (.obj [])) with
  | none => rfl
  | some s1 =>
  simp only [Option.some_bind]
  have h1i : invHasEntry s1 i = false :=
    runSeries_fresh_missing data "DAY_ENERGY" "energy_day" "energy_day" (by decide)
      i _ s1 hr1 h0i hmiss
  rcases hsk with hsk | hsk | hsk
  · subst hsk
    rw [runSeries_existing_none data "TOTAL_ENERGY" "TOTAL_ENERGY" "energy_total"
      "energy_total" (by decide) i s1 series vals hs hv hi h1i]
    rfl
  · subst hsk
    cases hr2 : runSeries data "TOTAL_ENERGY" "TOTAL_ENERGY" "energy_total"
        "energy_total" false s1 with
    | none => rfl
    | some s2 =>
    simp only [Option.some_bind]
    have h2i : invHasEntry s2 i = false := by
      rw [runSeries_existing_hasEntry data "TOTAL_ENERGY" "TOTAL_ENERGY" "energy_total"
        "energy_total" (by decide) i s1 s2 hr2]
      exact h1i
    rw [runSeries_existing_none data "YEAR_ENERGY" "TOTAL_ENERGY" "energy_year"
      "energy_year" (by decide) i s2 series vals hs hv hi h2i]
    rfl
  · subst hsk
    cases hr2 : runSeries data "TOTAL_ENERGY" "TOTAL_ENERGY" "energy_total"
        "energy_total" false s1 with
    | none => rfl
    | some s2 =>
    simp only [Option.some_bind]
    have h2i : invHasEntry s2 i = false := by
      rw [runSeries_existing_hasEntry data "TOTAL_ENERGY" "TOTAL_ENERGY" "energy_total"
        "energy_total" (by decide) i s1 s2 hr2]
      exact h1i
    cases hr3 : runSeries data "YEAR_ENERGY" "TOTAL_ENERGY" "energy_year"
        "energy_year" false s2 with
    | none => rfl
    | some s3 =>
    simp only [Option.some_bind]
    have h3i : invHasEntry s3 i = false := by
      rw [runSeries_existing_hasEntry data "YEAR_ENERGY" "TOTAL_ENERGY" "energy_year"
        "energy_year" (by decide) i s2 s3 hr3]
      exact h2i
    rw [runSeries_existing_none data "PAC" "TOTAL_ENERGY" "power_ac"
      "power_ac" (by decide) i s3 series vals hs hv hi h3i]
    rfl

/-- Witness for C7: a payload with `TOTAL_ENERGY` over inverter id `1`
but no `DAY_ENERGY` makes the normalizer raise. -/
theorem later_series_unknown_id_raises_witness :
    _system_inverter_data []
      (mkInvPayload none (some ("Wh", [("1", 5)])) none none) = none :=
  later_series_unknown_id_raises [] (mkInvPayload none (some ("Wh", [("1", 5)])) none none)
    "TOTAL_ENERGY" (mkSeries "Wh" [("1", 5)]) (numVals [("1", 5)]) "1"
    (Or.inl rfl) rfl rfl (by decide) rfl

/-! ### C3: the five header entries survive every endpoint operation -/

theorem meter_data_lookup_none (data : JVal) (md : Dict) (k : String)
    (hk1 : ∀ r ∈ meterRows, ¬ (r.tid = k))
    (hk2 : ∀ r ∈ detailsRows, ¬ (r.tid = k))
    (h : _meter_data data = some md) : lookup md k = none := by
  cases data <;> simp only [_meter_data] at h <;> try exact Option.noConfusion h
  case obj d =>
  rcases hdet : lookup d "Details" with _ | det
  · simp only [hdet, Option.some.injEq] at h
    subst h
    rw [lookup_copyTable_not_mem d meterRows k [] hk1]
    rfl
  · simp only [hdet] at h
    cases det <;> simp only [Option.some.injEq] at h <;> try simp at h
    case obj detd =>
    subst h
    rw [lookup_copyTable_not_mem detd detailsRows k _ hk2,
        lookup_copyTable_not_mem d meterRows k [] hk1]
    rfl

theorem controller_data_lookup_none (c : JVal) (cd : Dict) (k : String)
    (hk1 : ∀ r ∈ controllerRows, ¬ (r.tid = k))
    (hk2 : ∀ r ∈ detailsRows, ¬ (r.tid = k))
    (h : _controller_data c = some cd) : lookup cd k = none := by
  cases c <;> simp only [_controller_data] at h <;> try exact Option.noConfusion h
  case obj d =>
  rcases hdet : lookup d "Details" with _ | det
  · simp only [hdet, Option.some.injEq] at h
    subst h
    rw [lookup_copyTable_not_mem d controllerRows k [] hk1]
    rfl
  · simp only [hdet] at h
    cases det <;> simp only [Option.some.injEq] at h <;> try simp at h
    case obj detd =>
    subst h
    rw [lookup_copyTable_not_mem detd detailsRows k _ hk2,
        lookup_copyTable_not_mem d controllerRows k [] hk1]
    rfl

theorem runSeries_preserves_key (data : JVal) (skey ukey field agg : String)
    (hagg : ¬ (agg = "inverters")) (fresh : Bool) (k : String)
    (hk1 : ¬ (k = agg)) (hk2 : ¬ (k = "inverters")) (s s' : Dict)
    (h : runSeries data skey ukey field agg fresh s = some s') :
    lookup s' k = lookup s k := by
  simp only [runSeries] at h
  cases hd : getKey data skey with
  | none =>
      simp only [hd] at h
      injection h with h
      rw [h]
  | some series =>
      simp only [hd] at h
      cases hdv : getKey series "Values" with
      | none => rw [hdv] at h; exact Option.noConfusion h
      | some v =>
          rw [hdv] at h
          cases v <;> try exact Option.noConfusion h
          case obj vals =>
          exact seriesFold_preserves_other_key data ukey field agg hagg fresh k hk1 hk2
            vals s s' h

theorem system_power_flow_preserves_key (sensor : Dict) (dat : JVal) (s : Dict)
    (k : String)
    (hk1 : ∀ r ∈ powerFlowInverterRows, ¬ (r.tid = k))
    (hk2 : ∀ r ∈ powerFlowSiteRows, ¬ (r.tid = k))
    (h : _system_power_flow sensor dat = some s) :
    lookup s k = lookup sensor k := by
  simp only [_system_power_flow, Option.bind_eq_bind] at h
  cases hsite : getKey dat "Site" with
  | none => rw [hsite] at h; simp at h
  | some site =>
  simp only [hsite, Option.some_bind] at h
  cases hinvs : getKey dat "Inverters" with
  | none => rw [hinvs] at h; simp at h
  | some invs =>
  simp only [hinvs, Option.some_bind] at h
  cases hone : getKey invs "1" with
  | none => rw [hone] at h; simp at h
  | some inverter =>
  simp only [hone, Option.some_bind] at h
  cases inverter <;> cases site <;> simp only [Option.some.injEq] at h <;> try simp at h
  case obj.obj inv st =>
  subst h
  rw [lookup_copyTable_not_mem st powerFlowSiteRows k _ hk2,
      lookup_copyTable_not_mem inv powerFlowInverterRows k sensor hk1]

theorem system_meter_data_preserves_key (sensor : Dict) (dat : JVal) (s : Dict)
    (k : String) (hk : ¬ (k = "meters"))
    (h : _system_meter_data sensor dat = some s) :
    lookup s k = lookup sensor k := by
  cases dat <;> simp only [_system_meter_data, Option.bind_eq_bind] at h
    <;> try exact Option.noConfusion h
  case obj m =>
  cases hfold : m.foldlM meterStep ([] : Dict) with
  | none => rw [hfold] at h; simp at h
  | some meters =>
      rw [hfold] at h
      simp only [Option.some_bind, Option.pure_def, Option.some.injEq] at h
      subst h
      have hkm : ¬ ("meters" = k) := fun hh => hk hh.symm
      rw [lookup_dictSet, if_neg hkm]

theorem system_inverter_data_preserves_key (sensor : Dict) (dat : JVal) (s : Dict)
    (k : String)
    (hk1 : ¬ (k = "energy_day")) (hk2 : ¬ (k = "energy_total"))
    (hk3 : ¬ (k = "energy_year")) (hk4 : ¬ (k = "power_ac"))
    (hk5 : ¬ (k = "inverters"))
    (h : _system_inverter_data sensor dat = some s) :
    lookup s k = lookup sensor k := by
  obtain ⟨s1, s2, s3, hr1, hr2, hr3, hr4⟩ := system_inverter_stages sensor dat s h
  rw [runSeries_preserves_key dat "PAC" "TOTAL_ENERGY" "power_ac" "power_ac"
      (by decide) false k hk4 hk5 s3 s hr4,
    runSeries_preserves_key dat "YEAR_ENERGY" "TOTAL_ENERGY" "energy_year" "energy_year"
      (by decide) false k hk3 hk5 s2 s3 hr3,
    runSeries_preserves_key dat "TOTAL_ENERGY" "TOTAL_ENERGY" "energy_total" "energy_total"
      (by decide) false k hk2 hk5 s1 s2 hr2,
    runSeries_preserves_key dat "DAY_ENERGY" "DAY_ENERGY" "energy_day" "energy_day"
      (by decide) true k hk1 hk5 _ s1 hr1]
  rw [lookup_dictSet, if_neg (fun hh : "inverters" = k => hk5 hh.symm),
    lookup_dictSet, if_neg (fun hh : "power_ac" = k => hk4 hh.symm),
    lookup_dictSet, if_neg (fun hh : "energy_year" = k => hk3 hh.symm),
    lookup_dictSet, if_neg (fun hh : "energy_total" = k => hk2 hh.symm),
    lookup_dictSet, if_neg (fun hh : "energy_day" = k => hk1 hh.symm)]

theorem device_meter_data_preserves_key (sensor : Dict) (dat : JVal) (s : Dict)
    (k : String)
    (hk1 : ∀ r ∈ meterRows, ¬ (r.tid = k))
    (hk2 : ∀ r ∈ detailsRows, ¬ (r.tid = k))
    (h : _device_meter_data sensor dat = some s) :
    lookup s k = lookup sensor k := by
  simp only [_device_meter_data, Option.bind_eq_bind] at h
  cases hmd : _meter_data dat with
  | none => rw [hmd] at h; simp at h
  | some md =>
      rw [hmd] at h
      simp only [Option.some_bind, Option.pure_def, Option.some.injEq] at h
      subst h
      exact lookup_dictUpdate_of_not_mem sensor md k
        (not_mem_keys_of_lookup_eq_none md k
          (meter_data_lookup_none dat md k hk1 hk2 hmd))

theorem device_storage_data_preserves_key (sensor : Dict) (dat : JVal) (s : Dict)
    (k : String) (hk0 : ¬ (k = "modules"))
    (hk1 : ∀ r ∈ controllerRows, ¬ (r.tid = k))
    (hk2 : ∀ r ∈ detailsRows, ¬ (r.tid = k))
    (h : _device_storage_data sensor dat = some s) :
    lookup s k = lookup sensor k := by
  simp only [_device_storage_data, Option.bind_eq_bind] at h
  cases hctl : getKey dat "Controller" with
  | none =>
      simp only [hctl, Option.some_bind] at h
      exact (storageModules_spec sensor dat s h).1 k hk0
  | some c =>
      simp only [hctl] at h
      cases hcd : _controller_data c with
      | none => rw [hcd] at h; simp at h
      | some cd =>
          simp only [hcd, Option.pure_def, Option.some_bind] at h
          rw [(storageModules_spec (dictUpdate sensor cd) dat s h).1 k hk0]
          exact lookup_dictUpdate_of_not_mem sensor cd k
            (not_mem_keys_of_lookup_eq_none cd k
              (controller_data_lookup_none c cd k hk1 hk2 hcd))

theorem device_inverter_data_preserves_key (sensor : Dict) (dat : JVal) (s : Dict)
    (k : String)
    (hk : ∀ r ∈ deviceInverterRows, ¬ (r.tid = k))
    (h : _device_inverter_data sensor dat = some s) :
    lookup s k = lookup sensor k := by
  cases dat <;> simp only [_device_inverter_data, Option.some.injEq] at h
    <;> try exact Option.noConfusion h
  case obj d =>
  subst h
  exact lookup_copyTable_not_mem d deviceInverterRows k sensor hk

/-- A successful `_current_data` run either returned the header bundle
directly (falsy payload) or handed it to the normalizer. -/
theorem current_data_cases (j : JVal) (f : Dict → JVal → Option Dict) (s : Dict)
    (h : _current_data j f = some s) :
    ∃ sensor, _status_data j = some sensor
      ∧ (s = sensor ∨ ∃ dat, f sensor dat = some s) := by
  simp only [_current_data, Option.bind_eq_bind] at h
  cases hsd : _status_data j with
  | none => rw [hsd] at h; simp at h
  | some sensor =>
  simp only [hsd, Option.some_bind] at h
  cases hb : getKey j "Body" with
  | none => rw [hb] at h; simp at h
  | some body =>
  simp only [hb, Option.some_bind] at h
  cases htb : truthy body with
  | false =>
      rw [htb, if_pos rfl] at h
      injection h with h
      exact ⟨sensor, rfl, Or.inl h.symm⟩
  | true =>
      rw [htb, if_neg (by simp)] at h
      cases hd : getKey body "Data" with
      | none => rw [hd] at h; simp at h
      | some dat =>
      simp only [hd, Option.some_bind] at h
      cases htd : truthy dat with
      | false =>
          rw [htd, if_pos rfl] at h
          injection h with h
          exact ⟨sensor, rfl, Or.inl h.symm⟩
      | true =>
          rw [htd, if_neg (by simp)] at h
          exact ⟨sensor, rfl, Or.inr ⟨dat, h⟩⟩

theorem lookup_header_bundle (ts status code reason msg : JVal) :
    (lookup [("timestamp", JVal.obj [("value", ts)]), ("status", status),
       ("status_code", JVal.obj [("value", code)]),
       ("status_reason", JVal.obj [("value", reason)]),
       ("status_message", JVal.obj [("value", msg)])] "timestamp"
        = some (JVal.obj [("value", ts)]))
    ∧ (lookup [("timestamp", JVal.obj [("value", ts)]), ("status", status),
       ("status_code", JVal.obj [("value", code)]),
       ("status_reason", JVal.obj [("value", reason)]),
       ("status_message", JVal.obj [("value", msg)])] "status" = some status)
    ∧ (lookup [("timestamp", JVal.obj [("value", ts)]), ("status", status),
       ("status_code", JVal.obj [("value", code)]),
       ("status_reason", JVal.obj [("value", reason)]),
       ("status_message", JVal.obj [("value", msg)])] "status_code"
        = some (JVal.obj [("value", code)]))
    ∧ (lookup [("timestamp", JVal.obj [("value", ts)]), ("status", status),
       ("status_code", JVal.obj [("value", code)]),
       ("status_reason", JVal.obj [("value", reason)]),
       ("status_message", JVal.obj [("value", msg)])] "status_reason"
        = some (JVal.obj [("value", reason)]))
    ∧ (lookup [("timestamp", JVal.obj [("value", ts)]), ("status", status),
       ("status_code", JVal.obj [("value", code)]),
       ("status_reason", JVal.obj [("value", reason)]),
       ("status_message", JVal.obj [("value", msg)])] "status_message"
        = some (JVal.obj [("value", msg)])) := by
  refine ⟨rfl, ?_, ?_, ?_, ?_⟩ <;> simp [lookup]

/-- C3: for every endpoint operation and every successfully parsed
response, the returned bundle contains the five entries `timestamp`,
`status`, `status_code`, `status_reason`, `status_message` with values
copied verbatim from the response's `Head` (`Timestamp`, the `Status`
object itself, `Status.Code`, `Status.Reason`, `Status.UserMessage`) —
no normalizer overwrites them — and header extraction raises a
structural error exactly when `Head` or one of these keys is absent. -/
theorem status_header_contract (j : JVal) :
    ((_status_data j).isSome ↔ statusKeysPresent j = true)
  ∧ (∀ head ts status code reason msg,
      getKey j "Head" = some head →
      getKey head "Timestamp" = some ts →
      getKey head "Status" = some status →
      getKey status "Code" = some code →
      getKey status "Reason" = some reason →
      getKey status "UserMessage" = some msg →
      _status_data j = some
        [("timestamp", .obj [("value", ts)]),
         ("status", status),
         ("status_code", .obj [("value", code)]),
         ("status_reason", .obj [("value", reason)]),
         ("status_message", .obj [("value", msg)])]
      ∧ ∀ op ∈ [current_power_flow, current_system_meter_data,
            current_system_inverter_data, current_meter_data,
            current_storage_data, current_inverter_data],
          ∀ s, op j = some s →
            lookup s "timestamp" = some (.obj [("value", ts)])
            ∧ lookup s "status" = some status
            ∧ lookup s "status_code" = some (.obj [("value", code)])
            ∧ lookup s "status_reason" = some (.obj [("value", reason)])
            ∧ lookup s "status_message" = some (.obj [("value", msg)])) := by
  constructor
  · rw [status_data_isSome_eq]
  · intro head ts status code reason msg hh hts hst hc hr hm
    have hsd := status_data_eq_of_present j head status ts code reason msg hh hts hst hc hr hm
    refine ⟨hsd, ?_⟩
    intro op hop s hs
    obtain ⟨l1, l2, l3, l4, l5⟩ := lookup_header_bundle ts status code reason msg
    simp only [List.mem_cons, List.not_mem_nil, or_false] at hop
    rcases hop with hop | hop | hop | hop | hop | hop
    · subst hop
      obtain ⟨sensor, hsd2, hcase⟩ := current_data_cases j _system_power_flow s hs
      rw [hsd] at hsd2
      injection hsd2 with hsd2
      subst hsd2
      rcases hcase with hcase | ⟨dat, hf⟩
      · subst hcase
        exact ⟨l1, l2, l3, l4, l5⟩
      · refine ⟨?_, ?_, ?_, ?_, ?_⟩
        · rw [system_power_flow_preserves_key _ dat s "timestamp"
            (by decide) (by decide) hf]
          exact l1
        · rw [system_power_flow_preserves_key _ dat s "status"
            (by decide) (by decide) hf]
          exact l2
        · rw [system_power_flow_preserves_key _ dat s "status_code"
            (by decide) (by decide) hf]
          exact l3
        · rw [system_power_flow_preserves_key _ dat s "status_reason"
            (by decide) (by decide) hf]
          exact l4
        · rw [system_power_flow_preserves_key _ dat s "status_message"
            (by decide) (by decide) hf]
          exact l5
    · subst hop
      obtain ⟨sensor, hsd2, hcase⟩ := current_data_cases j _system_meter_data s hs
      rw [hsd] at hsd2
      injection hsd2 with hsd2
      subst hsd2
      rcases hcase with hcase | ⟨dat, hf⟩
      · subst hcase
        exact ⟨l1, l2, l3, l4, l5⟩
      · refine ⟨?_, ?_, ?_, ?_, ?_⟩
        · rw [system_meter_data_preserves_key _ dat s "timestamp" (by decide) hf]
          exact l1
        · rw [system_meter_data_preserves_key _ dat s "status" (by decide) hf]
          exact l2
        · rw [system_meter_data_preserves_key _ dat s "status_code" (by decide) hf]
          exact l3
        · rw [system_meter_data_preserves_key _ dat s "status_reason" (by decide) hf]
          exact l4
        · rw [system_meter_data_preserves_key _ dat s "status_message" (by decide) hf]
          exact l5
    · subst hop
      obtain ⟨sensor, hsd2, hcase⟩ := current_data_cases j _system_inverter_data s hs
      rw [hsd] at hsd2
      injection hsd2 with hsd2
      subst hsd2
      rcases hcase with hcase | ⟨dat, hf⟩
      · subst hcase
        exact ⟨l1, l2, l3, l4, l5⟩
      · refine ⟨?_, ?_, ?_, ?_, ?_⟩
        · rw [system_inverter_data_preserves_key _ dat s "timestamp"
            (by decide) (by decide) (by decide) (by decide) (by decide) hf]
          exact l1
        · rw [system_inverter_data_preserves_key _ dat s "status"
            (by decide) (by decide) (by decide) (by decide) (by decide) hf]
          exact l2
        · rw [system_inverter_data_preserves_key _ dat s "status_code"
            (by decide) (by decide) (by decide) (by decide) (by decide) hf]
          exact l3
        · rw [system_inverter_data_preserves_key _ dat s "status_reason"
            (by decide) (by decide) (by decide) (by decide) (by decide) hf]
          exact l4
        · rw [system_inverter_data_preserves_key _ dat s "status_message"
            (by decide) (by decide) (by decide) (by decide) (by decide) hf]
          exact l5
    · subst hop
      obtain ⟨sensor, hsd2, hcase⟩ := current_data_cases j _device_meter_data s hs
      rw [hsd] at hsd2
      injection hsd2 with hsd2
      subst hsd2
      rcases hcase with hcase | ⟨dat, hf⟩
      · subst hcase
        exact ⟨l1, l2, l3, l4, l5⟩
      · refine ⟨?_, ?_, ?_, ?_, ?_⟩
        · rw [device_meter_data_preserves_key _ dat s "timestamp"
            (by decide) (by decide) hf]
          exact l1
        · rw [device_meter_data_preserves_key _ dat s "status"
            (by decide) (by decide) hf]
          exact l2
        · rw [device_meter_data_preserves_key _ dat s "status_code"
            (by decide) (by decide) hf]
          exact l3
        · rw [device_meter_data_preserves_key _ dat s "status_reason"
            (by decide) (by decide) hf]
          exact l4
        · rw [device_meter_data_preserves_key _ dat s "status_message"
            (by decide) (by decide) hf]
          exact l5
    · subst hop
      obtain ⟨sensor, hsd2, hcase⟩ := current_data_cases j _device_storage_data s hs
      rw [hsd] at hsd2
      injection hsd2 with hsd2
      subst hsd2
      rcases hcase with hcase | ⟨dat, hf⟩
      · subst hcase
        exact ⟨l1, l2, l3, l4, l5⟩
      · refine ⟨?_, ?_, ?_, ?_, ?_⟩
        · rw [device_storage_data_preserves_key _ dat s "timestamp"
            (by decide) (by decide) (by decide) hf]
          exact l1
        · rw [device_storage_data_preserves_key _ dat s "status"
            (by decide) (by decide) (by decide) hf]
          exact l2
        · rw [device_storage_data_preserves_key _ dat s "status_code"
            (by decide) (by decide) (by decide) hf]
          exact l3
        · rw [device_storage_data_preserves_key _ dat s "status_reason"
            (by decide) (by decide) (by decide) hf]
          exact l4
        · rw [device_storage_data_preserves_key _ dat s "status_message"
            (by decide) (by decide) (by decide) hf]
          exact l5
    · subst hop
      obtain ⟨sensor, hsd2, hcase⟩ := current_data_cases j _device_inverter_data s hs
      rw [hsd] at hsd2
      injection hsd2 with hsd2
      subst hsd2
      rcases hcase with hcase | ⟨dat, hf⟩
      · subst hcase
        exact ⟨l1, l2, l3, l4, l5⟩
      · refine ⟨?_, ?_, ?_, ?_, ?_⟩
        · rw [device_inverter_data_preserves_key _ dat s "timestamp" (by decide) hf]
          exact l1
        · rw [device_inverter_data_preserves_key _ dat s "status" (by decide) hf]
          exact l2
        · rw [device_inverter_data_preserves_key _ dat s "status_code" (by decide) hf]
          exact l3
        · rw [device_inverter_data_preserves_key _ dat s "status_reason" (by decide) hf]
          exact l4
        · rw [device_inverter_data_preserves_key _ dat s "status_message" (by decide) hf]
          exact l5

/-- Witness for C3: the system-meter operation on a concrete response
with an empty body returns a bundle carrying the five header entries
verbatim. -/
theorem status_header_contract_witness :
    ∃ s, current_system_meter_data respEmptyBody = some s
      ∧ lookup s "timestamp" = some (.obj [("value", .str "t")])
      ∧ lookup s "status" = some statusEx
      ∧ lookup s "status_code" = some (.obj [("value", .num 0)])
      ∧ lookup s "status_reason" = some (.obj [("value", .str "ok")])
      ∧ lookup s "status_message" = some (.obj [("value", .str "msg")]) := by
  refine ⟨_, rfl, ?_⟩
  exact ((status_header_contract respEmptyBody).2 headEx (.str "t") statusEx (.num 0)
      (.str "ok") (.str "msg") rfl rfl rfl rfl rfl rfl).2 current_system_meter_data
    (by simp) _ rfl
